import Mathlib

/-!
# Record store of ModuleAB_Server (`models/records.go`)

A shallow embedding of the record persistence and query-composition code:
`GetFullPath`, `GetRecords`, `AddRecord` and `DeleteRecord`.

Go values are embedded as follows.

* A `*T` reference field is an `Option T`; `nil` is `none`.
* `time.Time` is an integer offset from the zero instant, so that `IsZero`
  is a comparison with `0`.
* A function returning `(T, error)` returns `Except GoError T`, or a
  structure holding both results where the source returns a value next to
  the error. A run-time panic is a constructor of `GoError` of its own.
* The `records` table is the list of its rows, each row written as the
  `Records` value the ORM materialises for it. Calls that reach the
  database or the entity lookups may fail; their outcomes are fields of
  `Env`, over which every theorem quantifies.
-/

namespace ModuleAB

/-! ## Go values -/

/-- A `time.Time`, as the signed distance from the zero instant. -/
structure Time where
  nsec : Int
deriving DecidableEq, Repr

/-- The method `time.Time.IsZero`. -/
def Time.IsZero (t : Time) : Bool := t.nsec == 0

/-- Errors and panics. `store msg` is an error value handed back by the
ORM, `badInfo errS` is `fmt.Errorf("Bad info: %s", errS)`,
and `indexOutOfRange i n` is the run-time panic of indexing a slice of
length `n` at `i`. -/
inductive GoError where
  | store (msg : String)
  | badInfo (errS : String)
  | indexOutOfRange (index length : Nat)
deriving DecidableEq, Repr

/-- Whether the error is the one built by `fmt.Errorf("Bad info: %s", ...)`. -/
def GoError.isBadInfo : GoError → Bool
  | .badInfo _ => true
  | _ => false

/-- Whether the value is a run-time panic rather than a returned error. -/
def GoError.isPanic : GoError → Bool
  | .indexOutOfRange _ _ => true
  | _ => false

/-- The `%s` fragment of `fmt.Sprintf`, on the characters of the format. -/
def sprintfChars : List Char → List String → List Char
  | [], _ => []
  | '%' :: 's' :: rest, a :: args => a.data ++ sprintfChars rest args
  | '%' :: 's' :: rest, [] => "%!s(MISSING)".data ++ sprintfChars rest []
  | '%' :: '%' :: rest, args => '%' :: sprintfChars rest args
  | c :: rest, args => c :: sprintfChars rest args

/-- The function `fmt.Sprintf` for formats whose verbs are `%s`. -/
def Sprintf (format : String) (args : List String) : String :=
  String.mk (sprintfChars format.data args)

/-- The predicate `unicode.IsSpace`: the white space code points. -/
def isSpace (c : Char) : Bool :=
  let n := c.toNat
  (9 ≤ n && n ≤ 13) || n == 32 || n == 0x85 || n == 0xA0 || n == 0x1680 ||
  (0x2000 ≤ n && n ≤ 0x200A) || n == 0x2028 || n == 0x2029 || n == 0x202F ||
  n == 0x205F || n == 0x3000

/-- The function `strings.TrimSpace`: leading and trailing white space removed. -/
def TrimSpace (s : String) : String :=
  String.mk ((s.data.dropWhile isSpace).reverse.dropWhile isSpace).reverse

/-! ## Data model -/

/-- The fields of `Hosts` that `records.go` reads. -/
structure Hosts where
  Id : String
  Name : String
deriving DecidableEq, Repr

/-- The fields of `BackupSets` that `records.go` reads. -/
structure BackupSets where
  Id : String
  Name : String
deriving DecidableEq, Repr

/-- The fields of `AppSets` that `records.go` reads. -/
structure AppSets where
  Id : String
  Name : String
deriving DecidableEq, Repr

/-- The fields of `Paths` that `records.go` reads. -/
structure Paths where
  Id : String
  Path : String
deriving DecidableEq, Repr

/-- The field of `OasJobs` that the controller reads. -/
structure OasJobs where
  JobId : String
deriving DecidableEq, Repr

/-- The struct `Records`. The field `Type` is written `Type_`, `Type` being
a keyword. -/
structure Records where
  Id : String
  Host : Option Hosts
  BackupSet : Option BackupSets
  AppSet : Option AppSets
  Path : Option Paths
  Filename : String
  Type_ : Int
  ArchiveId : String
  BackupTime : Time
  ArchivedTime : Time
  Jobs : List OasJobs
deriving DecidableEq, Repr

/-- Modelled from the spec: `PolicyTargetAll` is declared outside the
sources at hand; the comment on `Records.Type` reads `0 - All`. -/
def PolicyTargetAll : Int := 0

/-- Modelled from the spec: `PolicyTargetBackup` is declared outside the
sources at hand; the comment on `Records.Type` reads `1 - Backup`. -/
def PolicyTargetBackup : Int := 1

/-- Modelled from the spec: `PolicyTargetArchive` is declared outside the
sources at hand; the comment on `Records.Type` reads `2 - Archive`. -/
def PolicyTargetArchive : Int := 2

def RecordTypeAll : Int := PolicyTargetAll

def RecordTypeBackup : Int := PolicyTargetBackup

def RecordTypeArchive : Int := PolicyTargetArchive

def OrderAsc : Bool := false

def OrderDesc : Bool := true

def backupTimeStart : Nat := 0

def backupTimeEnd : Nat := 1

def archiveTimeStart : Nat := 2

def archiveTimeEnd : Nat := 3

/-- The method `GetFullPath`. It dereferences `AppSet`, `Host` and `Path`;
on a nil reference the call panics, which is `none` here. The record is
handed back next to the result, as the receiver is a pointer. -/
def GetFullPath (r : Records) : Records × Option String :=
  match r.AppSet, r.Host, r.Path with
  | some appSet, some host, some path =>
    (r, some (TrimSpace (Sprintf "%s/%s%s/%s" [appSet.Name, host.Name, path.Path, r.Filename])))
  | _, _, _ => (r, none)

/-! ## The ORM: query sets and their evaluation over the table -/

/-- An argument handed to `Filter`: a string or a time. -/
inductive Arg where
  | str (s : String)
  | time (t : Time)
deriving DecidableEq, Repr

/-- One `Filter(expr, arg)` call on a query set. -/
structure Filter where
  expr : String
  arg : Arg
deriving DecidableEq, Repr

/-- The state of an `orm.QuerySeter`: the table, the `Filter` calls so far
(a conjunction), the `Limit` and `Offset` when set, the `OrderBy` columns
and the `RelatedSel` depth when set. -/
structure QuerySeter where
  table : String
  filters : List Filter
  limit : Option Int
  offset : Option Int
  orders : List String
  relatedSel : Option Int
deriving DecidableEq, Repr

/-- The call `o.QueryTable(name)`. -/
def QueryTable (name : String) : QuerySeter :=
  { table := name, filters := [], limit := none, offset := none, orders := [],
    relatedSel := none }

/-- The method `Filter`: one more condition, joined by AND. -/
def QuerySeter.Filter (q : QuerySeter) (expr : String) (arg : Arg) : QuerySeter :=
  { q with filters := q.filters ++ [{ expr := expr, arg := arg }] }

/-- The method `Limit`. -/
def QuerySeter.Limit (q : QuerySeter) (n : Int) : QuerySeter :=
  { q with limit := some n }

/-- The method `Offset`. -/
def QuerySeter.Offset (q : QuerySeter) (n : Int) : QuerySeter :=
  { q with offset := some n }

/-- The method `OrderBy`. -/
def QuerySeter.OrderBy (q : QuerySeter) (exprs : List String) : QuerySeter :=
  { q with orders := exprs }

/-- The method `RelatedSel`. -/
def QuerySeter.RelatedSel (q : QuerySeter) (depth : Int) : QuerySeter :=
  { q with relatedSel := some depth }

/-- Whether `sub` starts the list `l`. -/
def startsWith : List Char → List Char → Bool
  | _, [] => true
  | [], _ :: _ => false
  | c :: l, d :: sub => c == d && startsWith l sub

/-- Whether `sub` occurs in `l` as a contiguous run. -/
def containsRun : List Char → List Char → Bool
  | [], sub => sub.isEmpty
  | c :: l, sub => startsWith (c :: l) sub || containsRun l sub

/-- Modelled from the spec: the ORM operator `icontains` (the ORM is a
library outside the sources), "case-insensitive substring match". -/
def icontains (s sub : String) : Bool :=
  containsRun (s.data.map Char.toLower) (sub.data.map Char.toLower)

/-- Modelled from the spec: what each filter expression used by
`GetRecords` selects. A bare column is an exact match, `__icontains` a
case-insensitive substring match, `__gte` and `__lte` inclusive bounds.
A foreign-key column holds the `Id` of the referenced entity and nothing
for a nil reference. -/
def Filter.holds (row : Records) (f : Filter) : Bool :=
  match f.arg with
  | .str v =>
    if f.expr = "id" then row.Id == v
    else if f.expr = "filename__icontains" then icontains row.Filename v
    else if f.expr = "archive_id" then row.ArchiveId == v
    else if f.expr = "path_id" then row.Path.map (fun p => p.Id) == some v
    else if f.expr = "host_id" then row.Host.map (fun h => h.Id) == some v
    else if f.expr = "app_set_id" then row.AppSet.map (fun a => a.Id) == some v
    else if f.expr = "backup_set_id" then row.BackupSet.map (fun b => b.Id) == some v
    else false
  | .time t =>
    if f.expr = "backup_time__gte" then decide (t.nsec ≤ row.BackupTime.nsec)
    else if f.expr = "backup_time__lte" then decide (row.BackupTime.nsec ≤ t.nsec)
    else if f.expr = "archived_time__gte" then decide (t.nsec ≤ row.ArchivedTime.nsec)
    else if f.expr = "archived_time__lte" then decide (row.ArchivedTime.nsec ≤ t.nsec)
    else false

/-- The value of an ordering column of a row. -/
def orderColumn (row : Records) (col : String) : Int :=
  if col = "backup_time" then row.BackupTime.nsec
  else if col = "archived_time" then row.ArchivedTime.nsec
  else 0

/-- Whether `a` comes strictly before `b` under one `OrderBy` expression:
ascending on the column, descending when the expression starts with `-`. -/
def strictlyBefore (order : String) (a b : Records) : Bool :=
  match order.data with
  | '-' :: col => decide (orderColumn b (String.mk col) < orderColumn a (String.mk col))
  | _ => decide (orderColumn a order < orderColumn b order)

/-- Whether `a` comes strictly before `b` under the `OrderBy` list, a later
expression breaking the ties of the earlier ones. -/
def precedes : List String → Records → Records → Bool
  | [], _, _ => false
  | o :: os, a, b =>
    if strictlyBefore o a b then true
    else if strictlyBefore o b a then false
    else precedes os a b

/-- Insertion of a row into an ordered list, after the rows that precede it. -/
def insertRow (orders : List String) (x : Records) : List Records → List Records
  | [] => [x]
  | y :: ys => if precedes orders y x then y :: insertRow orders x ys else x :: y :: ys

/-- The rows in the order of the `OrderBy` list; rows that tie keep their
table order. -/
def sortRows (orders : List String) : List Records → List Records
  | [] => []
  | x :: xs => insertRow orders x (sortRows orders xs)

/-- The rows a query set's filters select, in table order. -/
def QuerySeter.matching (q : QuerySeter) (rows : List Records) : List Records :=
  rows.filter (fun row => q.filters.all (fun f => f.holds row))

/-- Modelled from the spec: the rows `All` reads for a query set: those
every filter selects, ordered, then `Offset` rows skipped and at most
`Limit` rows kept. -/
def QuerySeter.run (q : QuerySeter) (rows : List Records) : List Records :=
  let sorted := sortRows q.orders (q.matching rows)
  let skipped := match q.offset with
    | some n => sorted.drop n.toNat
    | none => sorted
  match q.limit with
  | some n => skipped.take n.toNat
  | none => skipped

/-! ## Validation -/

/-- One entry of `validator.Errors`. -/
structure ValidationError where
  Key : String
  Message : String
deriving DecidableEq, Repr

/-- Whether `c` is in `[A-Fa-f0-9]`. -/
def isHexDigit (c : Char) : Bool :=
  let n := c.toNat
  (48 ≤ n && n ≤ 57) || (65 ≤ n && n ≤ 70) || (97 ≤ n && n ≤ 102)

/-- Consumes exactly `n` characters of `[A-Fa-f0-9]`. -/
def takeHex : Nat → List Char → Option (List Char)
  | 0, cs => some cs
  | _ + 1, [] => none
  | n + 1, c :: cs => if isHexDigit c then takeHex n cs else none

/-- Consumes one `-`. -/
def takeDash : List Char → Option (List Char)
  | '-' :: cs => some cs
  | _ => none

/-- The `Match` rule on `Records.Id`: the whole string matches
`^[A-Fa-f0-9]{8}-([A-Fa-f0-9]{4}-){3}[A-Fa-f0-9]{12}$`. -/
def matchId (s : String) : Bool :=
  (takeHex 8 s.data >>= takeDash >>= takeHex 4 >>= takeDash >>= takeHex 4 >>= takeDash
    >>= takeHex 4 >>= takeDash >>= takeHex 12) == some []

/-- Modelled from the spec: `validator.Valid` on a `Records`, which lives
in a library outside the sources. It reads the `valid` tags of the struct
in field order: `Id` matches the identifier pattern, `Path` is present,
`Filename` is non-empty and `Type` is present, a zero integer counting as
absent. The result is `validator.Errors`; the record is valid when it is
empty. -/
def Valid (r : Records) : List ValidationError :=
  (if matchId r.Id then [] else [{ Key := "Id.Match", Message := "Must match the pattern" }]) ++
  (if r.Path.isSome then [] else [{ Key := "Path.Required", Message := "Can not be empty" }]) ++
  (if r.Filename ≠ "" then [] else [{ Key := "Filename.Required", Message := "Can not be empty" }]) ++
  (if r.Type_ ≠ 0 then [] else [{ Key := "Type.Required", Message := "Can not be empty" }])

/-- The loop building `errS` from `validator.Errors`. -/
def errS (errors : List ValidationError) : String :=
  errors.foldl (fun acc e => Sprintf "%s, %s:%s" [acc, e.Key, e.Message]) ""

/-! ## The environment -/

/-- What the code reaches outside itself. `GetPaths`, `GetHosts`,
`GetAppSets` and `GetBackupSets` are the entity lookups of the sibling
models; `RelDepth` is `common.RelDepth`. The other fields are the outcomes
of the ORM calls that may fail: `Begin`, running a query with `All`,
`LoadRelated`, `Insert`, `Update`, `Delete` and `Commit`, with `none` for a
nil error and the message of the error otherwise. -/
structure Env where
  RelDepth : Int
  GetPaths : Paths → Int → Int → Except String (List Paths)
  GetHosts : Hosts → Int → Int → Except String (List Hosts)
  GetAppSets : AppSets → Int → Int → Except String (List AppSets)
  GetBackupSets : BackupSets → Int → Int → Except String (List BackupSets)
  Begin : Option String
  All : QuerySeter → Option String
  LoadRelated : Records → String → Int → Except String (List OasJobs)
  Insert : Records → Option String
  Update : Records → Option String
  Delete : Records → Option String
  Commit : Option String

/-- The row of a record: its columns. `Jobs` is a reverse relation and no
column. -/
def Records.row (r : Records) : Records :=
  { r with Jobs := [] }

/-- The call `o.Insert(record)` on the table: the row is added unless the
database rejects it; a second row with the same primary key is rejected. -/
def ormInsert (env : Env) (rows : List Records) (record : Records) :
    Except GoError (List Records) :=
  match env.Insert record with
  | some msg => .error (.store msg)
  | none =>
    if rows.any (fun r => r.Id == record.Id) then .error (.store "duplicate primary key")
    else .ok (rows ++ [record.row])

/-- The call `o.Update(record)` on the table: the row with the record's
primary key takes the record's columns. -/
def ormUpdate (env : Env) (rows : List Records) (record : Records) :
    Except GoError (List Records) :=
  match env.Update record with
  | some msg => .error (.store msg)
  | none => .ok (rows.map (fun r => if r.Id == record.Id then record.row else r))

/-- The call `o.Delete(record)` on the table: the row with the record's
primary key is removed; removing no row is no error. -/
def ormDelete (env : Env) (rows : List Records) (record : Records) :
    Except GoError (List Records) :=
  match env.Delete record with
  | some msg => .error (.store msg)
  | none => .ok (rows.filter (fun r => !(r.Id == record.Id)))

/-- The call `o.Commit()`, whose result the code drops: the rows written in
the transaction become the table unless the commit fails. -/
def ormCommit (env : Env) (before written : List Records) : List Records :=
  match env.Commit with
  | some _ => before
  | none => written

/-! ## `GetRecords` -/

/-- The block of `GetRecords` on `cond.Path`: the path is looked up by its
`Path` string, and the filter is added when the lookup returns no error
and at least one path. -/
def filterPath (env : Env) (cond : Records) (q : QuerySeter) : QuerySeter :=
  match cond.Path with
  | none => q
  | some p =>
    if p.Path ≠ "" then
      match env.GetPaths { Id := "", Path := p.Path } 1 0 with
      | .ok (p0 :: _) => q.Filter "path_id" (.str p0.Id)
      | .ok [] => q
      | .error _ => q
    else q

/-- The block of `GetRecords` on `cond.Host`. -/
def filterHost (env : Env) (cond : Records) (q : QuerySeter) : QuerySeter :=
  match cond.Host with
  | none => q
  | some h =>
    if h.Name ≠ "" then
      match env.GetHosts { Id := "", Name := h.Name } 1 0 with
      | .ok (h0 :: _) => q.Filter "host_id" (.str h0.Id)
      | .ok [] => q
      | .error _ => q
    else q

/-- The block of `GetRecords` on `cond.AppSet`. -/
def filterAppSet (env : Env) (cond : Records) (q : QuerySeter) : QuerySeter :=
  match cond.AppSet with
  | none => q
  | some a =>
    if a.Name ≠ "" then
      match env.GetAppSets { Id := "", Name := a.Name } 1 0 with
      | .ok (a0 :: _) => q.Filter "app_set_id" (.str a0.Id)
      | .ok [] => q
      | .error _ => q
    else q

/-- The block of `GetRecords` on `cond.BackupSet`. -/
def filterBackupSet (env : Env) (cond : Records) (q : QuerySeter) : QuerySeter :=
  match cond.BackupSet with
  | none => q
  | some b =>
    if b.Name ≠ "" then
      match env.GetBackupSets { Id := "", Name := b.Name } 1 0 with
      | .ok (b0 :: _) => q.Filter "backup_set_id" (.str b0.Id)
      | .ok [] => q
      | .error _ => q
    else q

/-- The index expression `times[i]`, which panics out of range. -/
def timeAt (times : List Time) (i : Nat) : Except GoError Time :=
  match times[i]? with
  | some t => .ok t
  | none => .error (.indexOutOfRange i times.length)

/-- The block of `GetRecords` on the variadic `times`. -/
def filterTimes (q : QuerySeter) (times : List Time) : Except GoError QuerySeter :=
  if times.length ≠ 0 then do
    let t ← timeAt times backupTimeStart
    let q := if !t.IsZero then q.Filter "backup_time__gte" (.time t) else q
    let t ← timeAt times backupTimeEnd
    let q := if !t.IsZero then q.Filter "backup_time__lte" (.time t) else q
    let t ← timeAt times archiveTimeStart
    let q := if !t.IsZero then q.Filter "archived_time__gte" (.time t) else q
    let t ← timeAt times archiveTimeEnd
    let q := if !t.IsZero then q.Filter "archived_time__lte" (.time t) else q
    pure q
  else pure q

/-- The block of `GetRecords` that orders the query set. -/
def orderQuery (cond : Records) (orderB orderA : Bool) (q : QuerySeter) : QuerySeter :=
  let sOrderB := "backup_time"
  let sOrderA := "archived_time"
  let sOrderB := if orderB == OrderDesc then "-" ++ sOrderB else sOrderB
  let sOrderA := if orderA == OrderDesc then "-" ++ sOrderA else sOrderA
  if cond.Type_ = RecordTypeBackup then q.OrderBy [sOrderB]
  else if cond.Type_ = RecordTypeArchive then q.OrderBy [sOrderA]
  else q.OrderBy [sOrderB, sOrderA]

/-- The first blocks of `GetRecords`: the query set on the table `records`
with the filters on `Id`, `Filename` and `ArchiveId`, each added when the
field is not empty, and then those on the four references. -/
def composeFilters (env : Env) (cond : Records) : QuerySeter :=
  let q := QueryTable "records"
  let q := if cond.Id ≠ "" then q.Filter "id" (.str cond.Id) else q
  let q := if cond.Filename ≠ "" then q.Filter "filename__icontains" (.str cond.Filename) else q
  let q := if cond.ArchiveId ≠ "" then q.Filter "archive_id" (.str cond.ArchiveId) else q
  let q := filterPath env cond q
  let q := filterHost env cond q
  let q := filterAppSet env cond q
  filterBackupSet env cond q

/-- The block of `GetRecords` on `limit` and `index`. -/
def paginate (limit index : Int) (q : QuerySeter) : QuerySeter :=
  let q := if limit > 0 then q.Limit limit else q
  if index > 0 then q.Offset index else q

/-- The query set `GetRecords` composes, up to and including `OrderBy`:
everything before the query runs. -/
def composeQuery (env : Env) (cond : Records) (limit index : Int) (orderB orderA : Bool)
    (times : List Time) : Except GoError QuerySeter := do
  let q := composeFilters env cond
  let q ← filterTimes q times
  let q := paginate limit index q
  pure (orderQuery cond orderB orderA q)

/-- One turn of the loop over the rows read: `o.LoadRelated(v, "Jobs",
common.RelDepth)`, whose results are dropped. A successful load fills
`Jobs`; a failed one leaves the record as read. -/
def loadJobs (env : Env) (v : Records) : Records :=
  match env.LoadRelated v "Jobs" env.RelDepth with
  | .ok jobs => { v with Jobs := jobs }
  | .error _ => v

/-- The function `GetRecords` over the table `rows`. -/
def GetRecords (env : Env) (rows : List Records) (cond : Records) (limit index : Int)
    (orderB orderA : Bool) (times : List Time) : Except GoError (List Records) := do
  let q ← composeQuery env cond limit index orderB orderA times
  let q := q.RelatedSel env.RelDepth
  match env.All q with
  | some msg => .error (.store msg)
  | none => pure ((q.run rows).map (loadJobs env))

/-! ## `AddRecord` and `DeleteRecord` -/

/-- What a call of `AddRecord` leaves: the table, the caller's record
(whose `Id` the call assigns in place) and the two results. -/
structure AddRecordResult where
  rows : List Records
  record : Records
  id : String
  err : Option GoError
deriving DecidableEq, Repr

/-- The identifier `AddRecord` assigns to the record: that of the first
record found when there is one, and a new one otherwise. -/
def assignId (records : List Records) (uuidNew : String) : String :=
  if records.length ≠ 0 then
    match records with
    | r :: _ => r.Id
    | [] => ""
  else uuidNew

/-- The function `AddRecord` over the table `rows`; `uuidNew` is what
`uuid.New()` returns on this call. A rollback leaves the table as it was. -/
def AddRecord (env : Env) (rows : List Records) (record : Records) (uuidNew : String) :
    AddRecordResult :=
  match env.Begin with
  | some msg => { rows := rows, record := record, id := "", err := some (.store msg) }
  | none =>
    match GetRecords env rows record 1 0 OrderDesc OrderDesc [] with
    | .error err => { rows := rows, record := record, id := "", err := some err }
    | .ok records =>
      let record := { record with Id := assignId records uuidNew }
      let errors := Valid record
      if !errors.isEmpty then
        { rows := rows, record := record, id := "", err := some (.badInfo (errS errors)) }
      else if records.length ≠ 0 then
        match ormUpdate env rows record with
        | .error err => { rows := rows, record := record, id := "", err := some err }
        | .ok written =>
          { rows := ormCommit env rows written, record := record, id := record.Id, err := none }
      else
        match ormInsert env rows record with
        | .error err => { rows := rows, record := record, id := "", err := some err }
        | .ok written =>
          { rows := ormCommit env rows written, record := record, id := record.Id, err := none }

/-- What a call of `DeleteRecord` leaves: the table and the error. -/
structure DeleteRecordResult where
  rows : List Records
  err : Option GoError
deriving DecidableEq, Repr

/-- The function `DeleteRecord` over the table `rows`. -/
def DeleteRecord (env : Env) (rows : List Records) (h : Records) : DeleteRecordResult :=
  match env.Begin with
  | some msg => { rows := rows, err := some (.store msg) }
  | none =>
    let errors := Valid h
    if !errors.isEmpty then
      { rows := rows, err := some (.badInfo (errS errors)) }
    else
      match ormDelete env rows h with
      | .error err => { rows := rows, err := some err }
      | .ok written => { rows := ormCommit env rows written, err := none }

/-- Whether an entity lookup leaves a name unresolved: it returns an error
or no entity. -/
def unresolved {α : Type} (res : Except String (List α)) : Bool :=
  match res with
  | .ok (_ :: _) => false
  | .ok [] => true
  | .error _ => true

/-! ## Sample values -/

def hostH1 : Hosts := { Id := "host-1", Name := "h1" }

def appSetA1 : AppSets := { Id := "appset-1", Name := "a1" }

def pathP1 : Paths := { Id := "path-1", Path := "/p1" }

def backupSetB1 : BackupSets := { Id := "bset-1", Name := "b1" }

/-- An environment in which no call fails, the entity lookups know `h1`,
`a1`, `/p1` and `b1`, and no record has jobs. -/
def sampleEnv : Env :=
  { RelDepth := 2
    GetPaths := fun p _ _ => .ok (if p.Path = "/p1" then [pathP1] else [])
    GetHosts := fun h _ _ => .ok (if h.Name = "h1" then [hostH1] else [])
    GetAppSets := fun a _ _ => .ok (if a.Name = "a1" then [appSetA1] else [])
    GetBackupSets := fun b _ _ => .ok (if b.Name = "b1" then [backupSetB1] else [])
    Begin := none
    All := fun _ => none
    LoadRelated := fun _ _ _ => .ok []
    Insert := fun _ => none
    Update := fun _ => none
    Delete := fun _ => none
    Commit := none }

/-- The environment `sampleEnv` with a `LoadRelated` that always fails. -/
def jobsFailEnv : Env :=
  { sampleEnv with LoadRelated := fun _ _ _ => .error "jobs: connection lost" }

def uuid1 : String := "11111111-1111-1111-1111-111111111111"

def uuid2 : String := "22222222-2222-2222-2222-222222222222"

/-- The record of the end-to-end scenario: `h1`, `a1`, `/p1`, `f.tar`, a
backup taken at time 100, archive `arc-1`. -/
def sampleR1 : Records :=
  { Id := "", Host := some hostH1, BackupSet := some backupSetB1, AppSet := some appSetA1,
    Path := some pathP1, Filename := "f.tar", Type_ := 1, ArchiveId := "arc-1",
    BackupTime := { nsec := 100 }, ArchivedTime := { nsec := 0 }, Jobs := [] }

/-- The same natural key as `sampleR1`, another archive and backup time. -/
def sampleR2 : Records :=
  { sampleR1 with ArchiveId := "arc-2", BackupTime := { nsec := 200 } }

/-- The same natural key as `sampleR1`, another backup time only. -/
def sampleR3 : Records :=
  { sampleR1 with BackupTime := { nsec := 300 } }

/-- The row `AddRecord` writes for `sampleR1` under the identifier `uuid1`. -/
def storedR1 : Records :=
  { sampleR1 with Id := uuid1 }

/-- A row of the same host, application set and path as `sampleR1`, whose
file name only contains `f.tar`, in other letter case. -/
def storedOld : Records :=
  { sampleR1 with Id := uuid2, Filename := "old-F.TAR.bak" }

def uuid3 : String := "33333333-3333-3333-3333-333333333333"

def uuid4 : String := "44444444-4444-4444-4444-444444444444"

/-- A row of the natural key of `sampleR1` but for a longer file name,
`f.tar.1`, backed up at time 500. -/
def storedX : Records :=
  { sampleR1 with Id := uuid3, Filename := "f.tar.1", BackupTime := { nsec := 500 } }

/-- A row of the natural key of `sampleR1` but for a longer file name,
`f.tar.2`, backed up at time 400. -/
def storedY : Records :=
  { sampleR1 with Id := uuid4, Filename := "f.tar.2", BackupTime := { nsec := 400 } }

/-- A row for a file name that contains `f.tar`, on another host. -/
def storedElsewhere : Records :=
  { storedOld with Host := some { Id := "host-2", Name := "h2" } }

/-- A filter template naming a host that no lookup knows. -/
def unknownHostCond : Records :=
  { sampleR1 with Host := some { Id := "", Name := "nohost" } }

/-- A record that carries a well-formed identifier and nothing else. -/
def idOnly : Records :=
  { Id := uuid1, Host := none, BackupSet := none, AppSet := none, Path := none,
    Filename := "", Type_ := 0, ArchiveId := "", BackupTime := { nsec := 0 },
    ArchivedTime := { nsec := 0 }, Jobs := [] }

/-! ## Lemmas on the Go library functions -/

theorem sprintf_full_path (a h p f : String) :
    Sprintf "%s/%s%s/%s" [a, h, p, f] = a ++ "/" ++ h ++ p ++ "/" ++ f := by
  apply String.ext
  simp [Sprintf, sprintfChars]

theorem head?_of_isPrefix {x y : List Char} (h : x <+: y) (c : Char)
    (hc : x.head? = some c) : y.head? = some c := by
  cases x with
  | nil => cases hc
  | cons a t =>
    obtain ⟨z, hz⟩ := h
    rw [← hz]
    exact hc

theorem TrimSpace_trimmed (s : String) :
    (∀ c, (TrimSpace s).data.head? = some c → isSpace c = false) ∧
    (∀ c, (TrimSpace s).data.getLast? = some c → isSpace c = false) := by
  unfold TrimSpace
  constructor
  · intro c hc
    have hpre : ((s.data.dropWhile isSpace).reverse.dropWhile isSpace).reverse <+:
        s.data.dropWhile isSpace := by
      have h := (List.dropWhile_suffix (l := (s.data.dropWhile isSpace).reverse) isSpace).reverse
      rwa [List.reverse_reverse] at h
    have h1 := head?_of_isPrefix hpre c hc
    have h2 := List.head?_dropWhile_not isSpace s.data
    rw [h1] at h2
    exact h2
  · intro c hc
    simp only [List.getLast?_reverse] at hc
    have h2 := List.head?_dropWhile_not isSpace (s.data.dropWhile isSpace).reverse
    rw [hc] at h2
    exact h2

/-! ## Lemmas on the composition of the query set -/

theorem filterTimes_nil (q : QuerySeter) : filterTimes q [] = .ok q := by
  simp [filterTimes]; rfl

theorem composeQuery_ok_iff (env : Env) (cond : Records) (limit index : Int)
    (orderB orderA : Bool) (times : List Time) (q : QuerySeter) :
    composeQuery env cond limit index orderB orderA times = .ok q ↔
      ∃ q1, filterTimes (composeFilters env cond) times = .ok q1 ∧
        q = orderQuery cond orderB orderA (paginate limit index q1) := by
  unfold composeQuery
  cases hft : filterTimes (composeFilters env cond) times with
  | error e => simp [bind, Except.bind, hft]
  | ok q1 =>
    simp only [bind, Except.bind, hft, pure, Except.pure]
    constructor
    · intro h
      injection h with h
      exact ⟨q1, rfl, h.symm⟩
    · rintro ⟨q2, h2, rfl⟩
      injection h2 with h2
      rw [h2]

theorem composeQuery_error_iff (env : Env) (cond : Records) (limit index : Int)
    (orderB orderA : Bool) (times : List Time) (e : GoError) :
    composeQuery env cond limit index orderB orderA times = .error e ↔
      filterTimes (composeFilters env cond) times = .error e := by
  unfold composeQuery
  cases hft : filterTimes (composeFilters env cond) times with
  | error e1 => simp [bind, Except.bind, hft]
  | ok q1 => simp [bind, Except.bind, hft, pure, Except.pure]

theorem orderQuery_orders (cond : Records) (orderB orderA : Bool) (q : QuerySeter) :
    (orderQuery cond orderB orderA q).orders =
      if cond.Type_ = RecordTypeBackup then
        [if orderB then "-backup_time" else "backup_time"]
      else if cond.Type_ = RecordTypeArchive then
        [if orderA then "-archived_time" else "archived_time"]
      else
        [if orderB then "-backup_time" else "backup_time",
         if orderA then "-archived_time" else "archived_time"] := by
  unfold orderQuery
  cases orderB <;> cases orderA <;> simp [OrderDesc, QuerySeter.OrderBy] <;>
    split_ifs <;> simp

theorem orderQuery_filters (cond : Records) (orderB orderA : Bool) (q : QuerySeter) :
    (orderQuery cond orderB orderA q).filters = q.filters := by
  unfold orderQuery
  simp only [QuerySeter.OrderBy]
  split_ifs <;> rfl

theorem paginate_filters (limit index : Int) (q : QuerySeter) :
    (paginate limit index q).filters = q.filters := by
  unfold paginate
  simp only [QuerySeter.Limit, QuerySeter.Offset]
  split_ifs <;> rfl

theorem paginate_with_filters (limit index : Int) (q : QuerySeter) (fs : List Filter) :
    paginate limit index { q with filters := fs } =
      { paginate limit index q with filters := fs } := by
  unfold paginate
  simp only [QuerySeter.Limit, QuerySeter.Offset]
  split_ifs <;> rfl

theorem orderQuery_with_filters (cond : Records) (orderB orderA : Bool) (q : QuerySeter)
    (fs : List Filter) :
    orderQuery cond orderB orderA { q with filters := fs } =
      { orderQuery cond orderB orderA q with filters := fs } := by
  unfold orderQuery
  simp only [QuerySeter.OrderBy]
  split_ifs <;> rfl

theorem filterTimes_short (q : QuerySeter) (times : List Time)
    (h1 : 1 ≤ times.length) (h3 : times.length ≤ 3) :
    filterTimes q times = .error (.indexOutOfRange times.length times.length) := by
  rcases times with _ | ⟨a, _ | ⟨b, _ | ⟨c, _ | ⟨d, rest⟩⟩⟩⟩
  · simp at h1
  · simp [filterTimes, timeAt, backupTimeStart, backupTimeEnd, bind, Except.bind]
  · simp [filterTimes, timeAt, backupTimeStart, backupTimeEnd, archiveTimeStart, bind,
      Except.bind]
  · simp [filterTimes, timeAt, backupTimeStart, backupTimeEnd, archiveTimeStart,
      archiveTimeEnd, bind, Except.bind]
  · simp at h3

theorem filterTimes_four (q : QuerySeter) (t0 t1 t2 t3 : Time) (rest : List Time) :
    filterTimes q (t0 :: t1 :: t2 :: t3 :: rest) =
      .ok { q with filters := q.filters ++
        (if t0.IsZero then [] else [{ expr := "backup_time__gte", arg := .time t0 }]) ++
        (if t1.IsZero then [] else [{ expr := "backup_time__lte", arg := .time t1 }]) ++
        (if t2.IsZero then [] else [{ expr := "archived_time__gte", arg := .time t2 }]) ++
        (if t3.IsZero then [] else [{ expr := "archived_time__lte", arg := .time t3 }]) } := by
  simp only [filterTimes, timeAt, backupTimeStart, backupTimeEnd, archiveTimeStart,
    archiveTimeEnd, bind, Except.bind, pure, Except.pure, QuerySeter.Filter]
  cases h0 : t0.IsZero <;> cases h1 : t1.IsZero <;> cases h2 : t2.IsZero <;>
    cases h3 : t3.IsZero <;> simp [h0, h1, h2, h3]

theorem filterHost_unresolved (env : Env) (cond : Records) (q : QuerySeter) (h : Hosts)
    (hc : cond.Host = some h)
    (hu : unresolved (env.GetHosts { Id := "", Name := h.Name } 1 0) = true) :
    filterHost env cond q = q := by
  unfold filterHost
  rw [hc]
  simp only
  split_ifs
  · revert hu
    cases env.GetHosts { Id := "", Name := h.Name } 1 0 with
    | error e => intro _; rfl
    | ok l => cases l <;> simp [unresolved]
  · rfl

theorem filterPath_unresolved (env : Env) (cond : Records) (q : QuerySeter) (p : Paths)
    (hc : cond.Path = some p)
    (hu : unresolved (env.GetPaths { Id := "", Path := p.Path } 1 0) = true) :
    filterPath env cond q = q := by
  unfold filterPath
  rw [hc]
  simp only
  split_ifs
  · revert hu
    cases env.GetPaths { Id := "", Path := p.Path } 1 0 with
    | error e => intro _; rfl
    | ok l => cases l <;> simp [unresolved]
  · rfl

theorem filterAppSet_unresolved (env : Env) (cond : Records) (q : QuerySeter) (a : AppSets)
    (hc : cond.AppSet = some a)
    (hu : unresolved (env.GetAppSets { Id := "", Name := a.Name } 1 0) = true) :
    filterAppSet env cond q = q := by
  unfold filterAppSet
  rw [hc]
  simp only
  split_ifs
  · revert hu
    cases env.GetAppSets { Id := "", Name := a.Name } 1 0 with
    | error e => intro _; rfl
    | ok l => cases l <;> simp [unresolved]
  · rfl

theorem filterBackupSet_unresolved (env : Env) (cond : Records) (q : QuerySeter)
    (b : BackupSets) (hc : cond.BackupSet = some b)
    (hu : unresolved (env.GetBackupSets { Id := "", Name := b.Name } 1 0) = true) :
    filterBackupSet env cond q = q := by
  unfold filterBackupSet
  rw [hc]
  simp only
  split_ifs
  · revert hu
    cases env.GetBackupSets { Id := "", Name := b.Name } 1 0 with
    | error e => intro _; rfl
    | ok l => cases l <;> simp [unresolved]
  · rfl

theorem Filter_all (q : QuerySeter) (expr : String) (arg : Arg) (row : Records) :
    ((q.Filter expr arg).filters.all (fun f => f.holds row) = true) ↔
      (q.filters.all (fun f => f.holds row) = true ∧
        Filter.holds row { expr := expr, arg := arg } = true) := by
  simp [QuerySeter.Filter, List.all_append]

theorem holds_id (row : Records) (v : String) :
    Filter.holds row { expr := "id", arg := .str v } = true ↔ row.Id = v := by
  simp [Filter.holds]

theorem holds_filename (row : Records) (v : String) :
    Filter.holds row { expr := "filename__icontains", arg := .str v } = true ↔
      icontains row.Filename v = true := by
  simp [Filter.holds]

theorem holds_archive_id (row : Records) (v : String) :
    Filter.holds row { expr := "archive_id", arg := .str v } = true ↔ row.ArchiveId = v := by
  simp [Filter.holds]

theorem holds_path_id (row : Records) (v : String) :
    Filter.holds row { expr := "path_id", arg := .str v } = true ↔
      row.Path.map (fun x => x.Id) = some v := by
  simp [Filter.holds]

theorem holds_host_id (row : Records) (v : String) :
    Filter.holds row { expr := "host_id", arg := .str v } = true ↔
      row.Host.map (fun x => x.Id) = some v := by
  simp [Filter.holds]

theorem holds_app_set_id (row : Records) (v : String) :
    Filter.holds row { expr := "app_set_id", arg := .str v } = true ↔
      row.AppSet.map (fun x => x.Id) = some v := by
  simp [Filter.holds]

theorem holds_backup_set_id (row : Records) (v : String) :
    Filter.holds row { expr := "backup_set_id", arg := .str v } = true ↔
      row.BackupSet.map (fun x => x.Id) = some v := by
  simp [Filter.holds]

theorem filterPath_all (env : Env) (cond : Records) (q : QuerySeter) (row : Records) :
    (((filterPath env cond q).filters.all (fun f => f.holds row)) = true) ↔
      (q.filters.all (fun f => f.holds row) = true ∧
        ∀ p p0 ps, cond.Path = some p → p.Path ≠ "" →
          env.GetPaths { Id := "", Path := p.Path } 1 0 = .ok (p0 :: ps) →
          row.Path.map (fun x => x.Id) = some p0.Id) := by
  unfold filterPath
  cases hc : cond.Path with
  | none =>
    constructor
    · intro h
      exact ⟨h, fun _ _ _ hp => by cases hp⟩
    · intro h
      exact h.1
  | some e =>
    simp only
    split_ifs with hne
    · cases hres : env.GetPaths { Id := "", Path := e.Path } 1 0 with
      | error msg =>
        constructor
        · intro h
          refine ⟨h, ?_⟩
          intro e1 e0 es hp _ hr
          cases hp
          rw [hres] at hr
          cases hr
        · intro h
          exact h.1
      | ok l =>
        cases l with
        | nil =>
          constructor
          · intro h
            refine ⟨h, ?_⟩
            intro e1 e0 es hp _ hr
            cases hp
            rw [hres] at hr
            cases hr
          · intro h
            exact h.1
        | cons e0 es =>
          rw [Filter_all, holds_path_id]
          constructor
          · rintro ⟨h1, h2⟩
            refine ⟨h1, ?_⟩
            intro e1 e2 es2 hp _ hr
            cases hp
            rw [hres] at hr
            cases hr
            exact h2
          · rintro ⟨h1, h2⟩
            exact ⟨h1, h2 e e0 es rfl hne hres⟩
    · constructor
      · intro h
        refine ⟨h, ?_⟩
        intro e1 e0 es hp hn _
        cases hp
        exact absurd hn hne
      · intro h
        exact h.1

theorem filterHost_all (env : Env) (cond : Records) (q : QuerySeter) (row : Records) :
    (((filterHost env cond q).filters.all (fun f => f.holds row)) = true) ↔
      (q.filters.all (fun f => f.holds row) = true ∧
        ∀ h h0 hs, cond.Host = some h → h.Name ≠ "" →
          env.GetHosts { Id := "", Name := h.Name } 1 0 = .ok (h0 :: hs) →
          row.Host.map (fun x => x.Id) = some h0.Id) := by
  unfold filterHost
  cases hc : cond.Host with
  | none =>
    constructor
    · intro h
      exact ⟨h, fun _ _ _ hp => by cases hp⟩
    · intro h
      exact h.1
  | some e =>
    simp only
    split_ifs with hne
    · cases hres : env.GetHosts { Id := "", Name := e.Name } 1 0 with
      | error msg =>
        constructor
        · intro h
          refine ⟨h, ?_⟩
          intro e1 e0 es hp _ hr
          cases hp
          rw [hres] at hr
          cases hr
        · intro h
          exact h.1
      | ok l =>
        cases l with
        | nil =>
          constructor
          · intro h
            refine ⟨h, ?_⟩
            intro e1 e0 es hp _ hr
            cases hp
            rw [hres] at hr
            cases hr
          · intro h
            exact h.1
        | cons e0 es =>
          rw [Filter_all, holds_host_id]
          constructor
          · rintro ⟨h1, h2⟩
            refine ⟨h1, ?_⟩
            intro e1 e2 es2 hp _ hr
            cases hp
            rw [hres] at hr
            cases hr
            exact h2
          · rintro ⟨h1, h2⟩
            exact ⟨h1, h2 e e0 es rfl hne hres⟩
    · constructor
      · intro h
        refine ⟨h, ?_⟩
        intro e1 e0 es hp hn _
        cases hp
        exact absurd hn hne
      · intro h
        exact h.1

theorem filterAppSet_all (env : Env) (cond : Records) (q : QuerySeter) (row : Records) :
    (((filterAppSet env cond q).filters.all (fun f => f.holds row)) = true) ↔
      (q.filters.all (fun f => f.holds row) = true ∧
        ∀ a a0 as, cond.AppSet = some a → a.Name ≠ "" →
          env.GetAppSets { Id := "", Name := a.Name } 1 0 = .ok (a0 :: as) →
          row.AppSet.map (fun x => x.Id) = some a0.Id) := by
  unfold filterAppSet
  cases hc : cond.AppSet with
  | none =>
    constructor
    · intro h
      exact ⟨h, fun _ _ _ hp => by cases hp⟩
    · intro h
      exact h.1
  | some e =>
    simp only
    split_ifs with hne
    · cases hres : env.GetAppSets { Id := "", Name := e.Name } 1 0 with
      | error msg =>
        constructor
        · intro h
          refine ⟨h, ?_⟩
          intro e1 e0 es hp _ hr
          cases hp
          rw [hres] at hr
          cases hr
        · intro h
          exact h.1
      | ok l =>
        cases l with
        | nil =>
          constructor
          · intro h
            refine ⟨h, ?_⟩
            intro e1 e0 es hp _ hr
            cases hp
            rw [hres] at hr
            cases hr
          · intro h
            exact h.1
        | cons e0 es =>
          rw [Filter_all, holds_app_set_id]
          constructor
          · rintro ⟨h1, h2⟩
            refine ⟨h1, ?_⟩
            intro e1 e2 es2 hp _ hr
            cases hp
            rw [hres] at hr
            cases hr
            exact h2
          · rintro ⟨h1, h2⟩
            exact ⟨h1, h2 e e0 es rfl hne hres⟩
    · constructor
      · intro h
        refine ⟨h, ?_⟩
        intro e1 e0 es hp hn _
        cases hp
        exact absurd hn hne
      · intro h
        exact h.1

theorem filterBackupSet_all (env : Env) (cond : Records) (q : QuerySeter) (row : Records) :
    (((filterBackupSet env cond q).filters.all (fun f => f.holds row)) = true) ↔
      (q.filters.all (fun f => f.holds row) = true ∧
        ∀ b b0 bs, cond.BackupSet = some b → b.Name ≠ "" →
          env.GetBackupSets { Id := "", Name := b.Name } 1 0 = .ok (b0 :: bs) →
          row.BackupSet.map (fun x => x.Id) = some b0.Id) := by
  unfold filterBackupSet
  cases hc : cond.BackupSet with
  | none =>
    constructor
    · intro h
      exact ⟨h, fun _ _ _ hp => by cases hp⟩
    · intro h
      exact h.1
  | some e =>
    simp only
    split_ifs with hne
    · cases hres : env.GetBackupSets { Id := "", Name := e.Name } 1 0 with
      | error msg =>
        constructor
        · intro h
          refine ⟨h, ?_⟩
          intro e1 e0 es hp _ hr
          cases hp
          rw [hres] at hr
          cases hr
        · intro h
          exact h.1
      | ok l =>
        cases l with
        | nil =>
          constructor
          · intro h
            refine ⟨h, ?_⟩
            intro e1 e0 es hp _ hr
            cases hp
            rw [hres] at hr
            cases hr
          · intro h
            exact h.1
        | cons e0 es =>
          rw [Filter_all, holds_backup_set_id]
          constructor
          · rintro ⟨h1, h2⟩
            refine ⟨h1, ?_⟩
            intro e1 e2 es2 hp _ hr
            cases hp
            rw [hres] at hr
            cases hr
            exact h2
          · rintro ⟨h1, h2⟩
            exact ⟨h1, h2 e e0 es rfl hne hres⟩
    · constructor
      · intro h
        refine ⟨h, ?_⟩
        intro e1 e0 es hp hn _
        cases hp
        exact absurd hn hne
      · intro h
        exact h.1

theorem composeFilters_all (env : Env) (cond : Records) (row : Records) :
    ((composeFilters env cond).filters.all (fun f => f.holds row) = true) ↔
      ((cond.Id = "" ∨ row.Id = cond.Id) ∧
       (cond.Filename = "" ∨ icontains row.Filename cond.Filename = true) ∧
       (cond.ArchiveId = "" ∨ row.ArchiveId = cond.ArchiveId) ∧
       (∀ p p0 ps, cond.Path = some p → p.Path ≠ "" →
          env.GetPaths { Id := "", Path := p.Path } 1 0 = .ok (p0 :: ps) →
          row.Path.map (fun x => x.Id) = some p0.Id) ∧
       (∀ h h0 hs, cond.Host = some h → h.Name ≠ "" →
          env.GetHosts { Id := "", Name := h.Name } 1 0 = .ok (h0 :: hs) →
          row.Host.map (fun x => x.Id) = some h0.Id) ∧
       (∀ a a0 as, cond.AppSet = some a → a.Name ≠ "" →
          env.GetAppSets { Id := "", Name := a.Name } 1 0 = .ok (a0 :: as) →
          row.AppSet.map (fun x => x.Id) = some a0.Id) ∧
       (∀ b b0 bs, cond.BackupSet = some b → b.Name ≠ "" →
          env.GetBackupSets { Id := "", Name := b.Name } 1 0 = .ok (b0 :: bs) →
          row.BackupSet.map (fun x => x.Id) = some b0.Id)) := by
  unfold composeFilters
  simp only [filterBackupSet_all, filterAppSet_all, filterHost_all, filterPath_all]
  have hbase : ((if cond.ArchiveId ≠ "" then
        (if cond.Filename ≠ "" then
          (if cond.Id ≠ "" then (QueryTable "records").Filter "id" (.str cond.Id)
            else QueryTable "records").Filter "filename__icontains" (.str cond.Filename)
          else if cond.Id ≠ "" then (QueryTable "records").Filter "id" (.str cond.Id)
            else QueryTable "records").Filter "archive_id" (.str cond.ArchiveId)
        else if cond.Filename ≠ "" then
          (if cond.Id ≠ "" then (QueryTable "records").Filter "id" (.str cond.Id)
            else QueryTable "records").Filter "filename__icontains" (.str cond.Filename)
          else if cond.Id ≠ "" then (QueryTable "records").Filter "id" (.str cond.Id)
            else QueryTable "records").filters.all (fun f => f.holds row) = true) ↔
      ((cond.Id = "" ∨ row.Id = cond.Id) ∧
       (cond.Filename = "" ∨ icontains row.Filename cond.Filename = true) ∧
       (cond.ArchiveId = "" ∨ row.ArchiveId = cond.ArchiveId)) := by
    by_cases h1 : cond.Id = "" <;> by_cases h2 : cond.Filename = "" <;>
      by_cases h3 : cond.ArchiveId = "" <;>
      simp only [h1, h2, h3, ne_eq, not_true_eq_false, not_false_eq_true, if_true, if_false,
        Filter_all, holds_id, holds_filename, holds_archive_id] <;>
      simp [QueryTable, and_assoc]
  rw [hbase]
  tauto

theorem finish_with_filters (cond : Records) (orderB orderA : Bool) (limit index : Int)
    (q : QuerySeter) (fs : List Filter) :
    orderQuery cond orderB orderA (paginate limit index { q with filters := fs }) =
      { orderQuery cond orderB orderA (paginate limit index q) with filters := fs } := by
  rw [paginate_with_filters, orderQuery_with_filters]

theorem finish_filters (cond : Records) (orderB orderA : Bool) (limit index : Int)
    (q : QuerySeter) :
    (orderQuery cond orderB orderA (paginate limit index q)).filters = q.filters := by
  rw [orderQuery_filters, paginate_filters]

theorem GetRecords_congr (env : Env) (rows : List Records) (cond cond2 : Records)
    (limit index : Int) (orderB orderA : Bool) (times : List Time)
    (h : composeQuery env cond limit index orderB orderA times =
      composeQuery env cond2 limit index orderB orderA times) :
    GetRecords env rows cond limit index orderB orderA times =
      GetRecords env rows cond2 limit index orderB orderA times := by
  unfold GetRecords
  rw [h]

/-! ## Lemmas on running a query set -/

theorem mem_insertRow (orders : List String) (x y : Records) (l : List Records) :
    y ∈ insertRow orders x l ↔ y = x ∨ y ∈ l := by
  induction l with
  | nil => simp [insertRow]
  | cons z zs ih =>
    unfold insertRow
    split_ifs
    · simp only [List.mem_cons, ih]
      tauto
    · simp only [List.mem_cons]

theorem mem_sortRows (orders : List String) (y : Records) (l : List Records) :
    y ∈ sortRows orders l ↔ y ∈ l := by
  induction l with
  | nil => simp [sortRows]
  | cons x xs ih => simp only [sortRows, mem_insertRow, ih, List.mem_cons]

theorem mem_matching_of_mem_run (q : QuerySeter) (rows : List Records) (v : Records)
    (h : v ∈ q.run rows) : v ∈ q.matching rows := by
  unfold QuerySeter.run at h
  have hs : ∀ w, w ∈ (match q.offset with
      | some n => (sortRows q.orders (q.matching rows)).drop n.toNat
      | none => sortRows q.orders (q.matching rows)) → w ∈ q.matching rows := by
    intro w hw
    cases hoff : q.offset with
    | none =>
      rw [hoff] at hw
      exact (mem_sortRows _ _ _).mp hw
    | some n =>
      rw [hoff] at hw
      exact (mem_sortRows _ _ _).mp (List.mem_of_mem_drop hw)
  cases hlim : q.limit with
  | none =>
    simp only [hlim] at h
    exact hs v h
  | some n =>
    simp only [hlim] at h
    exact hs v (List.mem_of_mem_take h)

theorem loadJobs_Id (env : Env) (v : Records) : (loadJobs env v).Id = v.Id := by
  unfold loadJobs
  cases env.LoadRelated v "Jobs" env.RelDepth <;> rfl

theorem GetRecords_ok_iff (env : Env) (rows : List Records) (cond : Records)
    (limit index : Int) (orderB orderA : Bool) (times : List Time) (l : List Records) :
    GetRecords env rows cond limit index orderB orderA times = .ok l ↔
      ∃ q, composeQuery env cond limit index orderB orderA times = .ok q ∧
        env.All (q.RelatedSel env.RelDepth) = none ∧
        l = ((q.RelatedSel env.RelDepth).run rows).map (loadJobs env) := by
  unfold GetRecords
  cases hq : composeQuery env cond limit index orderB orderA times with
  | error e => simp [bind, Except.bind]
  | ok q =>
    simp only [bind, Except.bind]
    cases hall : env.All (q.RelatedSel env.RelDepth) with
    | some msg => simp [hall]
    | none =>
      simp only [pure, Except.pure]
      constructor
      · intro h
        injection h with h
        exact ⟨q, rfl, hall, h.symm⟩
      · rintro ⟨q2, h2, _, h3⟩
        injection h2 with h2
        subst h2
        rw [h3]

theorem composeQuery_nil (env : Env) (cond : Records) (limit index : Int)
    (orderB orderA : Bool) :
    composeQuery env cond limit index orderB orderA [] =
      .ok (orderQuery cond orderB orderA (paginate limit index (composeFilters env cond))) :=
  (composeQuery_ok_iff _ _ _ _ _ _ _ _).mpr ⟨_, filterTimes_nil _, rfl⟩

theorem Valid_ne_nil (r : Records) (h : r.Filename = "" ∨ r.Path = none) :
    (Valid r).isEmpty = false := by
  unfold Valid
  rcases h with h | h
  · simp [h]
  · simp [h]

theorem Valid_of_bad_id (r : Records) (h : matchId r.Id = false) :
    (Valid r).isEmpty = false := by
  unfold Valid
  simp [h]

/-! ## Lemmas on the lookup of `AddRecord` and on its writes -/

theorem startsWith_self (l : List Char) : startsWith l l = true := by
  induction l with
  | nil => rfl
  | cons c l ih => simp [startsWith, ih]

theorem containsRun_self (l : List Char) : containsRun l l = true := by
  cases l with
  | nil => rfl
  | cons c l => simp [containsRun, startsWith_self]

theorem icontains_self (s : String) : icontains s s = true :=
  containsRun_self _

theorem Valid_isEmpty (r : Records) (h : (Valid r).isEmpty = true) :
    matchId r.Id = true ∧ r.Path.isSome = true ∧ r.Filename ≠ "" ∧ r.Type_ ≠ 0 := by
  unfold Valid at h
  by_cases h1 : matchId r.Id = true <;> by_cases h2 : r.Path.isSome = true <;>
    by_cases h3 : r.Filename = "" <;> by_cases h4 : r.Type_ = 0 <;>
    simp [h1, h2, h3, h4] at h ⊢

theorem filterPath_offset (env : Env) (cond : Records) (q : QuerySeter) :
    (filterPath env cond q).offset = q.offset := by
  unfold filterPath
  repeat' (first | rfl | split)

theorem filterHost_offset (env : Env) (cond : Records) (q : QuerySeter) :
    (filterHost env cond q).offset = q.offset := by
  unfold filterHost
  repeat' (first | rfl | split)

theorem filterAppSet_offset (env : Env) (cond : Records) (q : QuerySeter) :
    (filterAppSet env cond q).offset = q.offset := by
  unfold filterAppSet
  repeat' (first | rfl | split)

theorem filterBackupSet_offset (env : Env) (cond : Records) (q : QuerySeter) :
    (filterBackupSet env cond q).offset = q.offset := by
  unfold filterBackupSet
  repeat' (first | rfl | split)

theorem composeFilters_offset (env : Env) (cond : Records) :
    (composeFilters env cond).offset = none := by
  unfold composeFilters
  simp only [filterBackupSet_offset, filterAppSet_offset, filterHost_offset, filterPath_offset]
  repeat' (first | rfl | split)

theorem orderQuery_offset (cond : Records) (orderB orderA : Bool) (q : QuerySeter) :
    (orderQuery cond orderB orderA q).offset = q.offset := by
  unfold orderQuery
  simp only [QuerySeter.OrderBy]
  split_ifs <;> rfl

theorem orderQuery_limit (cond : Records) (orderB orderA : Bool) (q : QuerySeter) :
    (orderQuery cond orderB orderA q).limit = q.limit := by
  unfold orderQuery
  simp only [QuerySeter.OrderBy]
  split_ifs <;> rfl

theorem paginate_one (q : QuerySeter) : paginate 1 0 q = q.Limit 1 := by
  simp [paginate]

theorem sortRows_singleton (orders : List String) (x : Records) :
    sortRows orders [x] = [x] := rfl

theorem lookup_run (env : Env) (cond : Records) (rows : List Records) :
    ((orderQuery cond OrderDesc OrderDesc
        (paginate 1 0 (composeFilters env cond))).RelatedSel env.RelDepth).run rows =
      (sortRows (orderQuery cond OrderDesc OrderDesc
          (paginate 1 0 (composeFilters env cond))).orders
        (rows.filter (fun row =>
          (composeFilters env cond).filters.all (fun f => f.holds row)))).take 1 := by
  have hoff : ((orderQuery cond OrderDesc OrderDesc
      (paginate 1 0 (composeFilters env cond))).RelatedSel env.RelDepth).offset = none := by
    show (orderQuery cond OrderDesc OrderDesc (paginate 1 0 (composeFilters env cond))).offset =
      none
    rw [orderQuery_offset, paginate_one]
    exact composeFilters_offset env cond
  have hlim : ((orderQuery cond OrderDesc OrderDesc
      (paginate 1 0 (composeFilters env cond))).RelatedSel env.RelDepth).limit = some 1 := by
    show (orderQuery cond OrderDesc OrderDesc (paginate 1 0 (composeFilters env cond))).limit =
      some 1
    rw [orderQuery_limit, paginate_one]
    rfl
  have hfil : ((orderQuery cond OrderDesc OrderDesc
      (paginate 1 0 (composeFilters env cond))).RelatedSel env.RelDepth).filters =
      (composeFilters env cond).filters := finish_filters _ _ _ _ _ _
  unfold QuerySeter.run QuerySeter.matching
  rw [hoff, hlim, hfil]
  rfl

theorem lookup_empty (env : Env) (rows : List Records) (cond : Records)
    (hall : ∀ q, env.All q = none)
    (hno : ∀ row ∈ rows, (composeFilters env cond).filters.all (fun f => f.holds row) = false) :
    GetRecords env rows cond 1 0 OrderDesc OrderDesc [] = .ok [] := by
  refine (GetRecords_ok_iff _ _ _ _ _ _ _ _ _).mpr ⟨_, composeQuery_nil _ _ _ _ _ _, hall _, ?_⟩
  have hf : rows.filter (fun row =>
      (composeFilters env cond).filters.all (fun f => f.holds row)) = [] := by
    rw [List.filter_eq_nil_iff]
    intro row hr
    rw [hno row hr]
    simp
  rw [lookup_run, hf]
  rfl

theorem lookup_appended (env : Env) (rows : List Records) (cond x : Records)
    (hall : ∀ q, env.All q = none)
    (hno : ∀ row ∈ rows, (composeFilters env cond).filters.all (fun f => f.holds row) = false)
    (hx : (composeFilters env cond).filters.all (fun f => f.holds x) = true) :
    GetRecords env (rows ++ [x]) cond 1 0 OrderDesc OrderDesc [] = .ok [loadJobs env x] := by
  refine (GetRecords_ok_iff _ _ _ _ _ _ _ _ _).mpr ⟨_, composeQuery_nil _ _ _ _ _ _, hall _, ?_⟩
  have hf : rows.filter (fun row =>
      (composeFilters env cond).filters.all (fun f => f.holds row)) = [] := by
    rw [List.filter_eq_nil_iff]
    intro row hr
    rw [hno row hr]
    simp
  have hfx : [x].filter (fun row =>
      (composeFilters env cond).filters.all (fun f => f.holds row)) = [x] := by
    rw [List.filter_cons, hx]
    rfl
  rw [lookup_run, List.filter_append, hf, hfx, List.nil_append, sortRows_singleton]
  rfl

theorem AddRecord_new (env : Env) (rows : List Records) (record : Records) (uuidNew : String)
    (hb : env.Begin = none)
    (hlook : GetRecords env rows record 1 0 OrderDesc OrderDesc [] = .ok [])
    (hvalid : (Valid { record with Id := uuidNew }).isEmpty = true)
    (hins : env.Insert { record with Id := uuidNew } = none)
    (hfresh : ∀ row ∈ rows, row.Id ≠ uuidNew)
    (hcommit : env.Commit = none) :
    AddRecord env rows record uuidNew =
      { rows := rows ++ [({ record with Id := uuidNew } : Records).row],
        record := { record with Id := uuidNew },
        id := uuidNew,
        err := none } := by
  unfold AddRecord
  have hid : assignId [] uuidNew = uuidNew := by simp [assignId]
  have hany : rows.any (fun r => r.Id == uuidNew) = false := by
    rw [List.any_eq_false]
    intro row hr
    simpa using hfresh row hr
  simp only [hb, hlook, hid, hvalid]
  simp [ormInsert, hins, hany, ormCommit, hcommit]

theorem AddRecord_found (env : Env) (rows : List Records) (record : Records)
    (uuidNew : String) (found : Records) (rest : List Records) (id : String)
    (hb : env.Begin = none)
    (hlook : GetRecords env rows record 1 0 OrderDesc OrderDesc [] = .ok (found :: rest))
    (hid : found.Id = id)
    (hvalid : (Valid { record with Id := id }).isEmpty = true)
    (hupd : env.Update { record with Id := id } = none)
    (hcommit : env.Commit = none) :
    AddRecord env rows record uuidNew =
      { rows := rows.map (fun r =>
          if r.Id == id then ({ record with Id := id } : Records).row else r),
        record := { record with Id := id },
        id := id,
        err := none } := by
  unfold AddRecord
  have hassign : assignId (found :: rest) uuidNew = id := by simp [assignId, hid]
  simp only [hb, hlook, hassign, hvalid]
  simp [ormUpdate, hupd, ormCommit, hcommit]

theorem update_appended (rows : List Records) (x y : Records) (id : String)
    (hfresh : ∀ row ∈ rows, row.Id ≠ id) (hx : x.Id = id) :
    (rows ++ [x]).map (fun r => if r.Id == id then y else r) = rows ++ [y] := by
  rw [List.map_append]
  have h1 : rows.map (fun r => if r.Id == id then y else r) = rows := by
    conv_rhs => rw [← List.map_id rows]
    apply List.map_congr_left
    intro row hr
    have := hfresh row hr
    simp [this]
  rw [h1]
  simp [hx]

theorem filter_appended (rows : List Records) (y : Records) (id : String)
    (hfresh : ∀ row ∈ rows, row.Id ≠ id) (hy : y.Id = id) :
    (rows ++ [y]).filter (fun r => r.Id == id) = [y] := by
  rw [List.filter_append]
  have h1 : rows.filter (fun r => r.Id == id) = [] := by
    rw [List.filter_eq_nil_iff]
    intro row hr
    simpa using hfresh row hr
  rw [h1]
  simp [hy]

/-! ## The claims -/

/-- C8. For every record whose `AppSet`, `Host` and `Path` are not nil,
`GetFullPath` returns `TrimSpace(AppSet.Name + "/" + Host.Name + Path.Path +
"/" + Filename)`, a string that neither starts nor ends with white space,
and hands the record back with every field as it was. -/
theorem GetFullPath_spec (r : Records) (a : AppSets) (h : Hosts) (p : Paths)
    (hA : r.AppSet = some a) (hH : r.Host = some h) (hP : r.Path = some p) :
    GetFullPath r =
      (r, some (TrimSpace (a.Name ++ "/" ++ h.Name ++ p.Path ++ "/" ++ r.Filename))) ∧
    ∀ s, (GetFullPath r).2 = some s →
      (∀ c, s.data.head? = some c → isSpace c = false) ∧
      (∀ c, s.data.getLast? = some c → isSpace c = false) := by
  have he : GetFullPath r =
      (r, some (TrimSpace (a.Name ++ "/" ++ h.Name ++ p.Path ++ "/" ++ r.Filename))) := by
    simp [GetFullPath, hA, hH, hP, sprintf_full_path]
  refine ⟨he, ?_⟩
  intro s hs
  rw [he] at hs
  injection hs with hs
  rw [← hs]
  exact TrimSpace_trimmed _

theorem GetFullPath_spec_witness :
    GetFullPath { sampleR1 with Filename := "f.tar \n" } =
      ({ sampleR1 with Filename := "f.tar \n" }, some "a1/h1/p1/f.tar") :=
  (GetFullPath_spec { sampleR1 with Filename := "f.tar \n" } appSetA1 hostH1 pathP1
    rfl rfl rfl).1

/-- C5. Whatever the filter template, the paging and the time vector, the
`OrderBy` list of the query set `GetRecords` composes is `[backup_time]`
for `Type = Backup`, `[archived_time]` for `Type = Archive` and
`[backup_time, archived_time]` for every other `Type`, `All` among them;
a column carries the `-` of a descending order exactly when its own flag
is true, whatever the other flag. -/
theorem GetRecords_order_by (env : Env) (cond : Records) (limit index : Int)
    (orderB orderA : Bool) (times : List Time) (q : QuerySeter)
    (hq : composeQuery env cond limit index orderB orderA times = .ok q) :
    (cond.Type_ = RecordTypeBackup →
      q.orders = [if orderB then "-backup_time" else "backup_time"]) ∧
    (cond.Type_ = RecordTypeArchive →
      q.orders = [if orderA then "-archived_time" else "archived_time"]) ∧
    (cond.Type_ ≠ RecordTypeBackup → cond.Type_ ≠ RecordTypeArchive →
      q.orders = [if orderB then "-backup_time" else "backup_time",
                  if orderA then "-archived_time" else "archived_time"]) ∧
    (cond.Type_ = RecordTypeAll →
      q.orders = [if orderB then "-backup_time" else "backup_time",
                  if orderA then "-archived_time" else "archived_time"]) := by
  obtain ⟨q1, -, rfl⟩ := (composeQuery_ok_iff _ _ _ _ _ _ _ _).mp hq
  rw [orderQuery_orders]
  refine ⟨?_, ?_, ?_, ?_⟩
  · intro h; simp [h]
  · intro h; simp [h, RecordTypeArchive, RecordTypeBackup, PolicyTargetArchive, PolicyTargetBackup]
  · intro h1 h2; simp [h1, h2]
  · intro h; simp [h, RecordTypeAll, RecordTypeArchive, RecordTypeBackup, PolicyTargetAll,
      PolicyTargetArchive, PolicyTargetBackup]

theorem GetRecords_order_by_witness :
    ∃ q, composeQuery sampleEnv sampleR1 1 0 true false [] = .ok q ∧
      q.orders = ["-backup_time"] :=
  ⟨orderQuery sampleR1 true false (paginate 1 0 (composeFilters sampleEnv sampleR1)), rfl,
    (GetRecords_order_by sampleEnv sampleR1 1 0 true false [] _ rfl).1 rfl⟩

/-- C10. `GetRecords` indexes the four time slots as soon as the time
vector is not empty. With 1, 2 or 3 times the composition panics with an
index out of range, at the index that equals the length, and so does
`GetRecords`, whatever the table and whatever running a query would have
returned: no query runs. With no time or at least 4 times the composition
yields a query set, `GetRecords` does not panic, and the slots past the
fourth change nothing. -/
theorem GetRecords_time_index (env : Env) (rows : List Records) (cond : Records)
    (limit index : Int) (orderB orderA : Bool) (times : List Time) :
    (1 ≤ times.length → times.length ≤ 3 →
      composeQuery env cond limit index orderB orderA times =
        .error (.indexOutOfRange times.length times.length) ∧
      GetRecords env rows cond limit index orderB orderA times =
        .error (.indexOutOfRange times.length times.length)) ∧
    (times.length = 0 ∨ 4 ≤ times.length →
      (∃ q, composeQuery env cond limit index orderB orderA times = .ok q) ∧
      composeQuery env cond limit index orderB orderA times =
        composeQuery env cond limit index orderB orderA (times.take 4) ∧
      ∀ e, GetRecords env rows cond limit index orderB orderA times = .error e →
        e.isPanic = false ∧ ∃ q msg, env.All q = some msg ∧ e = .store msg) := by
  constructor
  · intro h1 h3
    have hc : composeQuery env cond limit index orderB orderA times =
        .error (.indexOutOfRange times.length times.length) :=
      (composeQuery_error_iff _ _ _ _ _ _ _ _).mpr (filterTimes_short _ _ h1 h3)
    refine ⟨hc, ?_⟩
    unfold GetRecords
    rw [hc]
    rfl
  · intro hlen
    have hok : ∃ q1, filterTimes (composeFilters env cond) times = .ok q1 ∧
        filterTimes (composeFilters env cond) (times.take 4) = .ok q1 := by
      rcases times with _ | ⟨a, _ | ⟨b, _ | ⟨c, _ | ⟨d, rest⟩⟩⟩⟩
      · exact ⟨_, filterTimes_nil _, filterTimes_nil _⟩
      · simp at hlen
      · simp at hlen
      · simp at hlen
      · refine ⟨_, filterTimes_four _ a b c d rest, ?_⟩
        simp only [List.take_succ_cons, List.take_zero]
        exact filterTimes_four _ a b c d []
    obtain ⟨q1, h1, h2⟩ := hok
    have hq : composeQuery env cond limit index orderB orderA times =
        .ok (orderQuery cond orderB orderA (paginate limit index q1)) :=
      (composeQuery_ok_iff _ _ _ _ _ _ _ _).mpr ⟨q1, h1, rfl⟩
    have hq4 : composeQuery env cond limit index orderB orderA (times.take 4) =
        .ok (orderQuery cond orderB orderA (paginate limit index q1)) :=
      (composeQuery_ok_iff _ _ _ _ _ _ _ _).mpr ⟨q1, h2, rfl⟩
    refine ⟨⟨_, hq⟩, by rw [hq, hq4], ?_⟩
    intro e he
    unfold GetRecords at he
    rw [hq] at he
    simp only [bind, Except.bind] at he
    split at he
    · rename_i msg hall
      injection he with he
      subst he
      exact ⟨rfl, _, msg, hall, rfl⟩
    · simp [pure, Except.pure] at he

theorem GetRecords_time_index_witness :
    GetRecords sampleEnv [] sampleR1 0 0 false false [{ nsec := 5 }, { nsec := 9 }] =
      .error (.indexOutOfRange 2 2) :=
  ((GetRecords_time_index sampleEnv [] sampleR1 0 0 false false
    [{ nsec := 5 }, { nsec := 9 }]).1 (by decide) (by decide)).2

/-- C7. With a time vector of four slots, the query set composed is the
one composed without a time vector plus, in this order, one filter for
each slot that is not the zero time: `backup_time__gte` for slot 0,
`backup_time__lte` for slot 1, `archived_time__gte` for slot 2 and
`archived_time__lte` for slot 3; a zero slot adds nothing, so four zero
times compose the query set of no time vector. Each of the four filters
is an inclusive bound on its column. -/
theorem GetRecords_time_bounds (env : Env) (cond : Records) (limit index : Int)
    (orderB orderA : Bool) (t0 t1 t2 t3 : Time) :
    (∃ q0, composeQuery env cond limit index orderB orderA [] = .ok q0 ∧
      composeQuery env cond limit index orderB orderA [t0, t1, t2, t3] =
        .ok { q0 with filters := q0.filters ++
          (if t0.IsZero then [] else [{ expr := "backup_time__gte", arg := .time t0 }]) ++
          (if t1.IsZero then [] else [{ expr := "backup_time__lte", arg := .time t1 }]) ++
          (if t2.IsZero then [] else [{ expr := "archived_time__gte", arg := .time t2 }]) ++
          (if t3.IsZero then [] else [{ expr := "archived_time__lte", arg := .time t3 }]) }) ∧
    (t0.IsZero = true → t1.IsZero = true → t2.IsZero = true → t3.IsZero = true →
      composeQuery env cond limit index orderB orderA [t0, t1, t2, t3] =
        composeQuery env cond limit index orderB orderA []) ∧
    (∀ (row : Records) (t : Time),
      (Filter.holds row { expr := "backup_time__gte", arg := .time t } = true ↔
        t.nsec ≤ row.BackupTime.nsec) ∧
      (Filter.holds row { expr := "backup_time__lte", arg := .time t } = true ↔
        row.BackupTime.nsec ≤ t.nsec) ∧
      (Filter.holds row { expr := "archived_time__gte", arg := .time t } = true ↔
        t.nsec ≤ row.ArchivedTime.nsec) ∧
      (Filter.holds row { expr := "archived_time__lte", arg := .time t } = true ↔
        row.ArchivedTime.nsec ≤ t.nsec)) := by
  have h0 : composeQuery env cond limit index orderB orderA [] =
      .ok (orderQuery cond orderB orderA (paginate limit index (composeFilters env cond))) :=
    (composeQuery_ok_iff _ _ _ _ _ _ _ _).mpr ⟨_, filterTimes_nil _, rfl⟩
  have h4 : composeQuery env cond limit index orderB orderA [t0, t1, t2, t3] =
      .ok { orderQuery cond orderB orderA (paginate limit index (composeFilters env cond)) with
        filters :=
          (orderQuery cond orderB orderA (paginate limit index (composeFilters env cond))).filters ++
          (if t0.IsZero then [] else [{ expr := "backup_time__gte", arg := .time t0 }]) ++
          (if t1.IsZero then [] else [{ expr := "backup_time__lte", arg := .time t1 }]) ++
          (if t2.IsZero then [] else [{ expr := "archived_time__gte", arg := .time t2 }]) ++
          (if t3.IsZero then [] else [{ expr := "archived_time__lte", arg := .time t3 }]) } := by
    refine (composeQuery_ok_iff _ _ _ _ _ _ _ _).mpr ⟨_, filterTimes_four _ t0 t1 t2 t3 [], ?_⟩
    simp only [finish_with_filters, finish_filters]
  refine ⟨⟨_, h0, h4⟩, ?_, ?_⟩
  · intro z0 z1 z2 z3
    rw [h4, h0]
    simp [z0, z1, z2, z3]
  · intro row t
    simp [Filter.holds]

theorem GetRecords_time_bounds_witness :
    composeQuery sampleEnv sampleR1 0 0 OrderAsc OrderAsc
        [{ nsec := 0 }, { nsec := 0 }, { nsec := 0 }, { nsec := 0 }] =
      composeQuery sampleEnv sampleR1 0 0 OrderAsc OrderAsc [] :=
  (GetRecords_time_bounds sampleEnv sampleR1 0 0 OrderAsc OrderAsc
    { nsec := 0 } { nsec := 0 } { nsec := 0 } { nsec := 0 }).2.1 rfl rfl rfl rfl

/-- C6. When the template's `Host` carries a non-empty name that the
entity lookup leaves unresolved (it fails or returns no host), the query
set composed, and with it the whole result of `GetRecords`, error or not,
is that of the same template with `Host` nil. Likewise for `Path`,
`AppSet` and `BackupSet`. -/
theorem GetRecords_unresolved_name (env : Env) (rows : List Records) (cond : Records)
    (limit index : Int) (orderB orderA : Bool) (times : List Time) :
    (∀ h, cond.Host = some h → h.Name ≠ "" →
      unresolved (env.GetHosts { Id := "", Name := h.Name } 1 0) = true →
      composeQuery env cond limit index orderB orderA times =
        composeQuery env { cond with Host := none } limit index orderB orderA times ∧
      GetRecords env rows cond limit index orderB orderA times =
        GetRecords env rows { cond with Host := none } limit index orderB orderA times) ∧
    (∀ p, cond.Path = some p → p.Path ≠ "" →
      unresolved (env.GetPaths { Id := "", Path := p.Path } 1 0) = true →
      composeQuery env cond limit index orderB orderA times =
        composeQuery env { cond with Path := none } limit index orderB orderA times ∧
      GetRecords env rows cond limit index orderB orderA times =
        GetRecords env rows { cond with Path := none } limit index orderB orderA times) ∧
    (∀ a, cond.AppSet = some a → a.Name ≠ "" →
      unresolved (env.GetAppSets { Id := "", Name := a.Name } 1 0) = true →
      composeQuery env cond limit index orderB orderA times =
        composeQuery env { cond with AppSet := none } limit index orderB orderA times ∧
      GetRecords env rows cond limit index orderB orderA times =
        GetRecords env rows { cond with AppSet := none } limit index orderB orderA times) ∧
    (∀ b, cond.BackupSet = some b → b.Name ≠ "" →
      unresolved (env.GetBackupSets { Id := "", Name := b.Name } 1 0) = true →
      composeQuery env cond limit index orderB orderA times =
        composeQuery env { cond with BackupSet := none } limit index orderB orderA times ∧
      GetRecords env rows cond limit index orderB orderA times =
        GetRecords env rows { cond with BackupSet := none } limit index orderB orderA times) := by
  refine ⟨?_, ?_, ?_, ?_⟩
  · intro h hc _ hu
    have hq : composeQuery env cond limit index orderB orderA times =
        composeQuery env { cond with Host := none } limit index orderB orderA times := by
      have hf : composeFilters env cond = composeFilters env { cond with Host := none } := by
        simp only [composeFilters]
        rw [filterHost_unresolved env cond _ h hc hu]
        rfl
      simp only [composeQuery, hf]
      rfl
    exact ⟨hq, GetRecords_congr _ _ _ _ _ _ _ _ _ hq⟩
  · intro p hc _ hu
    have hq : composeQuery env cond limit index orderB orderA times =
        composeQuery env { cond with Path := none } limit index orderB orderA times := by
      have hf : composeFilters env cond = composeFilters env { cond with Path := none } := by
        simp only [composeFilters]
        rw [filterPath_unresolved env cond _ p hc hu]
        rfl
      simp only [composeQuery, hf]
      rfl
    exact ⟨hq, GetRecords_congr _ _ _ _ _ _ _ _ _ hq⟩
  · intro a hc _ hu
    have hq : composeQuery env cond limit index orderB orderA times =
        composeQuery env { cond with AppSet := none } limit index orderB orderA times := by
      have hf : composeFilters env cond = composeFilters env { cond with AppSet := none } := by
        simp only [composeFilters]
        rw [filterAppSet_unresolved env cond _ a hc hu]
        rfl
      simp only [composeQuery, hf]
      rfl
    exact ⟨hq, GetRecords_congr _ _ _ _ _ _ _ _ _ hq⟩
  · intro b hc _ hu
    have hq : composeQuery env cond limit index orderB orderA times =
        composeQuery env { cond with BackupSet := none } limit index orderB orderA times := by
      have hf : composeFilters env cond =
          composeFilters env { cond with BackupSet := none } := by
        simp only [composeFilters]
        rw [filterBackupSet_unresolved env cond _ b hc hu]
        rfl
      simp only [composeQuery, hf]
      rfl
    exact ⟨hq, GetRecords_congr _ _ _ _ _ _ _ _ _ hq⟩

theorem GetRecords_unresolved_name_witness :
    composeQuery sampleEnv unknownHostCond 0 0 false false [] =
      composeQuery sampleEnv { unknownHostCond with Host := none } 0 0 false false [] ∧
    GetRecords sampleEnv [storedR1] unknownHostCond 0 0 false false [] =
      GetRecords sampleEnv [storedR1] { unknownHostCond with Host := none } 0 0 false false [] :=
  (GetRecords_unresolved_name sampleEnv [storedR1] unknownHostCond 0 0 false false []).1
    { Id := "", Name := "nohost" } rfl (by decide) rfl

/-- C3, as the code has it. The rows the lookup of `AddRecord` matches are
the rows of the table that satisfy every filter `GetRecords` composes from
the incoming record: the incoming `Id` when it is not empty, a file name
that contains the incoming `Filename` case-insensitively, the incoming
`ArchiveId` when it is not empty, and for each of `Path`, `Host`, `AppSet`
and `BackupSet` whose name is not empty and resolves, the identifier of the
first entity the lookup returns. What the lookup returns are matching rows
with their jobs loaded. -/
theorem AddRecord_lookup_matches (env : Env) (rows : List Records) (record row : Records)
    (q : QuerySeter)
    (hq : composeQuery env record 1 0 OrderDesc OrderDesc [] = .ok q) :
    (row ∈ q.matching rows ↔
      row ∈ rows ∧
      (record.Id = "" ∨ row.Id = record.Id) ∧
      (record.Filename = "" ∨ icontains row.Filename record.Filename = true) ∧
      (record.ArchiveId = "" ∨ row.ArchiveId = record.ArchiveId) ∧
      (∀ p p0 ps, record.Path = some p → p.Path ≠ "" →
        env.GetPaths { Id := "", Path := p.Path } 1 0 = .ok (p0 :: ps) →
        row.Path.map (fun x => x.Id) = some p0.Id) ∧
      (∀ h h0 hs, record.Host = some h → h.Name ≠ "" →
        env.GetHosts { Id := "", Name := h.Name } 1 0 = .ok (h0 :: hs) →
        row.Host.map (fun x => x.Id) = some h0.Id) ∧
      (∀ a a0 as, record.AppSet = some a → a.Name ≠ "" →
        env.GetAppSets { Id := "", Name := a.Name } 1 0 = .ok (a0 :: as) →
        row.AppSet.map (fun x => x.Id) = some a0.Id) ∧
      (∀ b b0 bs, record.BackupSet = some b → b.Name ≠ "" →
        env.GetBackupSets { Id := "", Name := b.Name } 1 0 = .ok (b0 :: bs) →
        row.BackupSet.map (fun x => x.Id) = some b0.Id)) ∧
    (∀ l, GetRecords env rows record 1 0 OrderDesc OrderDesc [] = .ok l →
      ∀ v ∈ l, ∃ r ∈ q.matching rows, v = loadJobs env r) := by
  rw [composeQuery_nil] at hq
  injection hq with hq
  constructor
  · unfold QuerySeter.matching
    rw [List.mem_filter, ← hq, finish_filters, composeFilters_all]
  · intro l hl v hv
    obtain ⟨q2, h2, -, rfl⟩ := (GetRecords_ok_iff _ _ _ _ _ _ _ _ _).mp hl
    rw [composeQuery_nil] at h2
    injection h2 with h2
    rw [hq] at h2
    subst h2
    obtain ⟨r, hr, rfl⟩ := List.mem_map.mp hv
    exact ⟨r, mem_matching_of_mem_run _ _ _ hr, rfl⟩

theorem AddRecord_lookup_matches_witness :
    storedR1 ∈ (orderQuery sampleR3 OrderDesc OrderDesc
      (paginate 1 0 (composeFilters sampleEnv sampleR3))).matching [storedR1] :=
  ((AddRecord_lookup_matches sampleEnv [storedR1] sampleR3 storedR1 _ rfl).1).mpr (by
    refine ⟨by simp, Or.inl rfl, Or.inr (by decide), Or.inr rfl, ?_, ?_, ?_, ?_⟩
    · intro p p0 ps hp _ hr
      cases hp
      cases hr
      rfl
    · intro p p0 ps hp _ hr
      cases hp
      cases hr
      rfl
    · intro p p0 ps hp _ hr
      cases hp
      cases hr
      rfl
    · intro p p0 ps hp _ hr
      cases hp
      cases hr
      rfl)

/-- C3 as stated fails. With the row `old-F.TAR.bak` in the table, the
lookup for the incoming file name `f.tar` returns that row, whose file name
is another one; and of two incoming records with one natural key, the one
with archive `arc-1` finds the row of `sampleR1` and the one with archive
`arc-2` finds nothing. -/
theorem AddRecord_lookup_not_exact :
    GetRecords sampleEnv [storedOld] sampleR1 1 0 OrderDesc OrderDesc [] = .ok [storedOld] ∧
    storedOld.Filename ≠ sampleR1.Filename ∧
    GetRecords sampleEnv [storedR1] sampleR1 1 0 OrderDesc OrderDesc [] = .ok [storedR1] ∧
    GetRecords sampleEnv [storedR1] sampleR2 1 0 OrderDesc OrderDesc [] = .ok [] ∧
    (sampleR1.Host, sampleR1.AppSet, sampleR1.Path, sampleR1.Filename) =
      (sampleR2.Host, sampleR2.AppSet, sampleR2.Path, sampleR2.Filename) := by
  refine ⟨by rfl, by decide, by rfl, by rfl, rfl⟩

/-- C9, as the code has it. When the composition yields a query set and
running it succeeds, `GetRecords` returns the rows read, without an error,
whatever `LoadRelated` returns for them: a record whose jobs fail to load
is returned as it was read, and one whose jobs load carries them. -/
theorem GetRecords_jobs_failure_dropped (env : Env) (rows : List Records) (cond : Records)
    (limit index : Int) (orderB orderA : Bool) (times : List Time) (q : QuerySeter)
    (hq : composeQuery env cond limit index orderB orderA times = .ok q)
    (hall : env.All (q.RelatedSel env.RelDepth) = none) :
    GetRecords env rows cond limit index orderB orderA times =
      .ok (((q.RelatedSel env.RelDepth).run rows).map (loadJobs env)) ∧
    (∀ v msg, env.LoadRelated v "Jobs" env.RelDepth = .error msg → loadJobs env v = v) ∧
    (∀ v jobs, env.LoadRelated v "Jobs" env.RelDepth = .ok jobs →
      loadJobs env v = { v with Jobs := jobs }) := by
  refine ⟨(GetRecords_ok_iff _ _ _ _ _ _ _ _ _).mpr ⟨q, hq, hall, rfl⟩, ?_, ?_⟩
  · intro v msg h
    simp [loadJobs, h]
  · intro v jobs h
    simp [loadJobs, h]

theorem GetRecords_jobs_failure_dropped_witness :
    GetRecords jobsFailEnv [storedR1] sampleR1 0 0 OrderAsc OrderAsc [] =
      .ok ((((orderQuery sampleR1 OrderAsc OrderAsc
        (paginate 0 0 (composeFilters jobsFailEnv sampleR1))).RelatedSel
          jobsFailEnv.RelDepth).run [storedR1]).map (loadJobs jobsFailEnv)) :=
  (GetRecords_jobs_failure_dropped jobsFailEnv [storedR1] sampleR1 0 0 OrderAsc OrderAsc [] _
    rfl rfl).1

/-- C9 as stated fails. The main query succeeds and returns the row of
`sampleR1`, loading its jobs fails, and `GetRecords` returns the row
without an error. -/
theorem GetRecords_jobs_failure_not_propagated :
    jobsFailEnv.LoadRelated storedR1 "Jobs" jobsFailEnv.RelDepth =
      .error "jobs: connection lost" ∧
    GetRecords jobsFailEnv [storedR1] sampleR1 0 0 OrderAsc OrderAsc [] = .ok [storedR1] := by
  exact ⟨rfl, by rfl⟩

/-- C4, as the code has it. `DeleteRecord` validates the whole record, as
an update does. A record that fails validation, which every record with a
malformed `Id` does, leaves the table as it was and, once the transaction
has begun, gets the `Bad info` error. A record that passes validation and
whose `Id` no row carries leaves the table as it was and gets no `Bad info`
error, and no error at all when `Begin` and `Delete` succeed. -/
theorem DeleteRecord_validation (env : Env) (rows : List Records) (h : Records) :
    ((Valid h).isEmpty = false →
      (DeleteRecord env rows h).rows = rows ∧
      (env.Begin = none →
        (DeleteRecord env rows h).err = some (.badInfo (errS (Valid h))))) ∧
    (matchId h.Id = false → (Valid h).isEmpty = false) ∧
    ((Valid h).isEmpty = true → (∀ r ∈ rows, r.Id ≠ h.Id) →
      (DeleteRecord env rows h).rows = rows ∧
      (∀ e, (DeleteRecord env rows h).err = some e → e.isBadInfo = false) ∧
      (env.Begin = none → env.Delete h = none → (DeleteRecord env rows h).err = none)) := by
  have hfilter : (∀ r ∈ rows, r.Id ≠ h.Id) →
      rows.filter (fun r => !(r.Id == h.Id)) = rows := by
    intro hne
    rw [List.filter_eq_self]
    intro r hr
    simp [hne r hr]
  refine ⟨?_, Valid_of_bad_id h, ?_⟩
  · intro hv
    unfold DeleteRecord
    cases hb : env.Begin with
    | some msg => simp
    | none => simp [hv]
  · intro hv hne
    unfold DeleteRecord
    cases hb : env.Begin with
    | some msg => simp [GoError.isBadInfo]
    | none =>
      cases hd : env.Delete h with
      | some msg => simp [hv, ormDelete, hd, GoError.isBadInfo]
      | none =>
        cases hc : env.Commit with
        | some msg => simp [hv, ormDelete, hd, ormCommit, hc]
        | none => simp [hv, ormDelete, hd, ormCommit, hc, hfilter hne]

theorem DeleteRecord_validation_witness :
    (DeleteRecord sampleEnv [storedR1] { storedR1 with Id := "not-an-id" }).rows = [storedR1] ∧
    (sampleEnv.Begin = none →
      (DeleteRecord sampleEnv [storedR1] { storedR1 with Id := "not-an-id" }).err =
        some (.badInfo (errS (Valid { storedR1 with Id := "not-an-id" })))) :=
  (DeleteRecord_validation sampleEnv [storedR1] { storedR1 with Id := "not-an-id" }).1
    (by decide)

/-- C4 as stated fails. The record `idOnly` carries a well-formed
identifier that no row of the table has, and `DeleteRecord` returns the
`Bad info` error for it. -/
theorem DeleteRecord_id_only_bad_info :
    matchId idOnly.Id = true ∧
    (∀ r ∈ [storedOld], r.Id ≠ idOnly.Id) ∧
    (DeleteRecord sampleEnv [storedOld] idOnly).rows = [storedOld] ∧
    (Valid idOnly).map (fun e => e.Key) =
      ["Path.Required", "Filename.Required", "Type.Required"] ∧
    (DeleteRecord sampleEnv [storedOld] idOnly).err =
      some (.badInfo (errS (Valid idOnly))) := by
  refine ⟨by decide, by decide, by decide, by decide, by decide⟩

/-- C2. For every table and every record whose `Filename` is empty or whose
`Path` is nil, `AddRecord` returns an error and the empty identifier and
leaves the table as it was; the error is the `Bad info` validation error
whenever the transaction begins and the lookup query succeeds, and the
error of `Begin` or of the lookup otherwise. -/
theorem AddRecord_invalid (env : Env) (rows : List Records) (record : Records)
    (uuidNew : String) (h : record.Filename = "" ∨ record.Path = none) :
    (AddRecord env rows record uuidNew).rows = rows ∧
    (AddRecord env rows record uuidNew).id = "" ∧
    (AddRecord env rows record uuidNew).err.isSome = true ∧
    (env.Begin = none →
      ∀ records, GetRecords env rows record 1 0 OrderDesc OrderDesc [] = .ok records →
        ∃ errors, errors ≠ [] ∧
          (AddRecord env rows record uuidNew).err = some (.badInfo (errS errors))) := by
  unfold AddRecord
  cases hb : env.Begin with
  | some msg => simp
  | none =>
    cases hg : GetRecords env rows record 1 0 OrderDesc OrderDesc [] with
    | error e => simp
    | ok records =>
      have hv : (Valid { record with Id := assignId records uuidNew }).isEmpty = false :=
        Valid_ne_nil _ h
      simp only [hv]
      refine ⟨rfl, rfl, rfl, ?_⟩
      intro _ records2 h2
      injection h2 with h2
      subst h2
      refine ⟨_, ?_, rfl⟩
      intro hnil
      rw [hnil] at hv
      simp at hv

theorem AddRecord_invalid_witness :
    (AddRecord sampleEnv [storedR1] { sampleR1 with Filename := "" } uuid2).rows = [storedR1] ∧
    (AddRecord sampleEnv [storedR1] { sampleR1 with Filename := "" } uuid2).id = "" ∧
    (AddRecord sampleEnv [storedR1] { sampleR1 with Filename := "" } uuid2).err.isSome = true :=
  ⟨(AddRecord_invalid sampleEnv [storedR1] { sampleR1 with Filename := "" } uuid2
      (Or.inl rfl)).1,
    (AddRecord_invalid sampleEnv [storedR1] { sampleR1 with Filename := "" } uuid2
      (Or.inl rfl)).2.1,
    (AddRecord_invalid sampleEnv [storedR1] { sampleR1 with Filename := "" } uuid2
      (Or.inl rfl)).2.2.1⟩

/-- C1, as the code has it. Let `r1` and `r2` share host, application set,
path and file name, both valid under the new identifier `u1`, and let every
name among these references that the entity lookup resolves resolve to
the reference's own identifier. Let `r2` come with no identifier (or with
`u1`), with an archive that is empty or that of `r1`, and with a backup set
whose name, when it resolves, resolves to the backup set of `r1`; backup
time, archive time, type and jobs are free. Let the table hold no row
under `u1`, and let every row whose file name contains that of the records
differ from them in a resolved path, host or application set. When no ORM
call fails, `AddRecord(r1)` then `AddRecord(r2)` both succeed and return
`u1`, and the table ends as it began plus one row, that of `r2`, the only
one under `u1`. -/
theorem AddRecord_twice (env : Env) (rows : List Records) (r1 r2 : Records) (u1 u2 : String)
    (hhost : r1.Host = r2.Host) (happ : r1.AppSet = r2.AppSet) (hpath : r1.Path = r2.Path)
    (hfile : r1.Filename = r2.Filename)
    (hv1 : (Valid { r1 with Id := u1 }).isEmpty = true)
    (hv2 : (Valid { r2 with Id := u1 }).isEmpty = true)
    (hid : r2.Id = "" ∨ r2.Id = u1)
    (harch : r2.ArchiveId = "" ∨ r2.ArchiveId = r1.ArchiveId)
    (hbset : ∀ b b0 bs, r2.BackupSet = some b → b.Name ≠ "" →
      env.GetBackupSets { Id := "", Name := b.Name } 1 0 = .ok (b0 :: bs) →
      r1.BackupSet.map (fun x => x.Id) = some b0.Id)
    (hresP : ∀ p p0 ps, r1.Path = some p → p.Path ≠ "" →
      env.GetPaths { Id := "", Path := p.Path } 1 0 = .ok (p0 :: ps) → p0.Id = p.Id)
    (hresH : ∀ h h0 hs, r1.Host = some h → h.Name ≠ "" →
      env.GetHosts { Id := "", Name := h.Name } 1 0 = .ok (h0 :: hs) → h0.Id = h.Id)
    (hresA : ∀ a a0 as, r1.AppSet = some a → a.Name ≠ "" →
      env.GetAppSets { Id := "", Name := a.Name } 1 0 = .ok (a0 :: as) → a0.Id = a.Id)
    (hfresh : ∀ row ∈ rows, row.Id ≠ u1)
    (hstore : ∀ row ∈ rows, icontains row.Filename r1.Filename = true →
      (∃ p p0 ps, r1.Path = some p ∧ p.Path ≠ "" ∧
        env.GetPaths { Id := "", Path := p.Path } 1 0 = .ok (p0 :: ps) ∧
        row.Path.map (fun x => x.Id) ≠ some p0.Id) ∨
      (∃ h h0 hs, r1.Host = some h ∧ h.Name ≠ "" ∧
        env.GetHosts { Id := "", Name := h.Name } 1 0 = .ok (h0 :: hs) ∧
        row.Host.map (fun x => x.Id) ≠ some h0.Id) ∨
      (∃ a a0 as, r1.AppSet = some a ∧ a.Name ≠ "" ∧
        env.GetAppSets { Id := "", Name := a.Name } 1 0 = .ok (a0 :: as) ∧
        row.AppSet.map (fun x => x.Id) ≠ some a0.Id))
    (hbegin : env.Begin = none) (hall : ∀ q, env.All q = none)
    (hins : env.Insert { r1 with Id := u1 } = none)
    (hupd : env.Update { r2 with Id := u1 } = none)
    (hcommit : env.Commit = none) :
    (AddRecord env rows r1 u1).err = none ∧
    (AddRecord env rows r1 u1).id = u1 ∧
    (AddRecord env (AddRecord env rows r1 u1).rows r2 u2).err = none ∧
    (AddRecord env (AddRecord env rows r1 u1).rows r2 u2).id = (AddRecord env rows r1 u1).id ∧
    (AddRecord env (AddRecord env rows r1 u1).rows r2 u2).rows =
      rows ++ [({ r2 with Id := u1 } : Records).row] ∧
    (AddRecord env (AddRecord env rows r1 u1).rows r2 u2).rows.filter
      (fun r => r.Id == u1) = [({ r2 with Id := u1 } : Records).row] := by
  have hf1 : r1.Filename ≠ "" := (Valid_isEmpty _ hv1).2.2.1
  have hno1 : ∀ row ∈ rows,
      (composeFilters env r1).filters.all (fun f => f.holds row) = false := by
    intro row hr
    by_contra hc
    rw [Bool.not_eq_false, composeFilters_all] at hc
    obtain ⟨-, hfn, -, hp, hh, ha, -⟩ := hc
    have hin : icontains row.Filename r1.Filename = true := hfn.resolve_left hf1
    rcases hstore row hr hin with ⟨p, p0, ps, e1, e2, e3, e4⟩ | ⟨h, h0, hs, e1, e2, e3, e4⟩ |
      ⟨a, a0, as, e1, e2, e3, e4⟩
    · exact e4 (hp p p0 ps e1 e2 e3)
    · exact e4 (hh h h0 hs e1 e2 e3)
    · exact e4 (ha a a0 as e1 e2 e3)
  have hno2 : ∀ row ∈ rows,
      (composeFilters env r2).filters.all (fun f => f.holds row) = false := by
    intro row hr
    by_contra hc
    rw [Bool.not_eq_false, composeFilters_all, ← hpath, ← hhost, ← happ, ← hfile] at hc
    obtain ⟨-, hfn, -, hp, hh, ha, -⟩ := hc
    have hin : icontains row.Filename r1.Filename = true := hfn.resolve_left hf1
    rcases hstore row hr hin with ⟨p, p0, ps, e1, e2, e3, e4⟩ | ⟨h, h0, hs, e1, e2, e3, e4⟩ |
      ⟨a, a0, as, e1, e2, e3, e4⟩
    · exact e4 (hp p p0 ps e1 e2 e3)
    · exact e4 (hh h h0 hs e1 e2 e3)
    · exact e4 (ha a a0 as e1 e2 e3)
  have hmatch : (composeFilters env r2).filters.all
      (fun f => f.holds ({ r1 with Id := u1 } : Records).row) = true := by
    rw [composeFilters_all, ← hpath, ← hhost, ← happ, ← hfile]
    refine ⟨?_, Or.inr (icontains_self _), ?_, ?_, ?_, ?_, hbset⟩
    · rcases hid with h | h
      · exact Or.inl h
      · exact Or.inr h.symm
    · rcases harch with h | h
      · exact Or.inl h
      · exact Or.inr h.symm
    · intro p p0 ps e1 e2 e3
      show r1.Path.map (fun x => x.Id) = some p0.Id
      rw [e1, hresP p p0 ps e1 e2 e3]
      rfl
    · intro h h0 hs e1 e2 e3
      show r1.Host.map (fun x => x.Id) = some h0.Id
      rw [e1, hresH h h0 hs e1 e2 e3]
      rfl
    · intro a a0 as e1 e2 e3
      show r1.AppSet.map (fun x => x.Id) = some a0.Id
      rw [e1, hresA a a0 as e1 e2 e3]
      rfl
  have hfirst := AddRecord_new env rows r1 u1 hbegin (lookup_empty env rows r1 hall hno1)
    hv1 hins hfresh hcommit
  have hsecond := AddRecord_found env (rows ++ [({ r1 with Id := u1 } : Records).row]) r2 u2
    (loadJobs env ({ r1 with Id := u1 } : Records).row) [] u1 hbegin
    (lookup_appended env rows r2 _ hall hno2 hmatch) (loadJobs_Id env _) hv2 hupd hcommit
  rw [hfirst, hsecond, update_appended rows _ _ u1 hfresh rfl]
  exact ⟨rfl, rfl, rfl, rfl, rfl, filter_appended rows _ u1 hfresh rfl⟩

theorem AddRecord_twice_witness :
    (AddRecord sampleEnv [storedElsewhere] sampleR1 uuid1).err = none ∧
    (AddRecord sampleEnv [storedElsewhere] sampleR1 uuid1).id = uuid1 ∧
    (AddRecord sampleEnv (AddRecord sampleEnv [storedElsewhere] sampleR1 uuid1).rows
      sampleR3 uuid4).err = none ∧
    (AddRecord sampleEnv (AddRecord sampleEnv [storedElsewhere] sampleR1 uuid1).rows
      sampleR3 uuid4).id = (AddRecord sampleEnv [storedElsewhere] sampleR1 uuid1).id ∧
    (AddRecord sampleEnv (AddRecord sampleEnv [storedElsewhere] sampleR1 uuid1).rows
      sampleR3 uuid4).rows =
      [storedElsewhere] ++ [({ sampleR3 with Id := uuid1 } : Records).row] ∧
    (AddRecord sampleEnv (AddRecord sampleEnv [storedElsewhere] sampleR1 uuid1).rows
      sampleR3 uuid4).rows.filter (fun r => r.Id == uuid1) =
      [({ sampleR3 with Id := uuid1 } : Records).row] :=
  AddRecord_twice sampleEnv [storedElsewhere] sampleR1 sampleR3 uuid1 uuid4
    rfl rfl rfl rfl (by decide) (by decide) (Or.inl rfl) (Or.inr rfl)
    (by
      intro b b0 bs e1 _ e3
      cases e1
      cases e3
      rfl)
    (by
      intro p p0 ps e1 _ e3
      cases e1
      cases e3
      rfl)
    (by
      intro h h0 hs e1 _ e3
      cases e1
      cases e3
      rfl)
    (by
      intro a a0 as e1 _ e3
      cases e1
      cases e3
      rfl)
    (by decide)
    (by
      intro row hr _
      rw [List.mem_singleton] at hr
      subst hr
      exact Or.inr (Or.inl ⟨hostH1, hostH1, [], rfl, by decide, rfl, by decide⟩))
    rfl (fun _ => rfl) rfl rfl rfl

/-- C1 as stated fails. On the empty table, `sampleR1` and `sampleR2` are
valid, share host, application set, path and file name and differ in
archive and backup time; both calls of `AddRecord` succeed, the identifiers
returned differ, and the table ends with two rows of that natural key.
And on the table of `f.tar.1` and `f.tar.2`, `sampleR1` and `sampleR3`,
which differ in backup time only, both succeed, the first under the
identifier of `f.tar.1` and the second under that of `f.tar.2`, and the
table ends with two rows of their natural key. -/
theorem AddRecord_same_key_second_row :
    (sampleR1.Host, sampleR1.AppSet, sampleR1.Path, sampleR1.Filename) =
      (sampleR2.Host, sampleR2.AppSet, sampleR2.Path, sampleR2.Filename) ∧
    (AddRecord sampleEnv [] sampleR1 uuid1).err = none ∧
    (AddRecord sampleEnv (AddRecord sampleEnv [] sampleR1 uuid1).rows sampleR2 uuid2).err =
      none ∧
    (AddRecord sampleEnv [] sampleR1 uuid1).id = uuid1 ∧
    (AddRecord sampleEnv (AddRecord sampleEnv [] sampleR1 uuid1).rows sampleR2 uuid2).id =
      uuid2 ∧
    uuid1 ≠ uuid2 ∧
    (AddRecord sampleEnv (AddRecord sampleEnv [] sampleR1 uuid1).rows sampleR2 uuid2).rows =
      [{ sampleR1 with Id := uuid1 }, { sampleR2 with Id := uuid2 }] ∧
    (sampleR1.Host, sampleR1.AppSet, sampleR1.Path, sampleR1.Filename) =
      (sampleR3.Host, sampleR3.AppSet, sampleR3.Path, sampleR3.Filename) ∧
    (AddRecord sampleEnv [storedX, storedY] sampleR1 uuid1).err = none ∧
    (AddRecord sampleEnv [storedX, storedY] sampleR1 uuid1).id = uuid3 ∧
    (AddRecord sampleEnv (AddRecord sampleEnv [storedX, storedY] sampleR1 uuid1).rows
      sampleR3 uuid2).err = none ∧
    (AddRecord sampleEnv (AddRecord sampleEnv [storedX, storedY] sampleR1 uuid1).rows
      sampleR3 uuid2).id = uuid4 ∧
    uuid3 ≠ uuid4 ∧
    (AddRecord sampleEnv (AddRecord sampleEnv [storedX, storedY] sampleR1 uuid1).rows
      sampleR3 uuid2).rows =
      [{ sampleR1 with Id := uuid3 }, { sampleR3 with Id := uuid4 }] := by
  refine ⟨rfl, by decide, by decide, by decide, by decide, by decide, by decide,
    rfl, by decide, by decide, by decide, by decide, by decide, by decide⟩

end ModuleAB
